import Mathlib

/-!
Shallow embedding of the forge-inventory subgraph's event-indexing engine.

Sources embedded here:
* `src/mapping.ts` — the event handlers (`handleTokenCreated`,
  `handleTransferSingle`, `handleTransferBatch`, `handleTokenMint`,
  `handleRoleGranted`, `handleRoleRevoked`) together with their helpers
  (`getOrCreateUser`, `updateUserBalance`, `updateGlobalStats`,
  `updateDailyStats`, `getRoleName`, `fetchAndParseMetadata`).
* the development server (`dev-server`) — the event merge
  (concatenate the per-kind lists and sort by block number, then log index)
  and the chunked backfill loop (`getEventsWithRetryInChunks`).

Modelling conventions:
* AssemblyScript `BigInt` quantities (amounts, supplies, counters) are `Int`;
  block numbers, log indices and timestamps (always non-negative on chain)
  are `Nat`.
* Addresses and 32-byte hashes are carried as their hex strings, exactly the
  form the handlers compare (`address.toHex()`).
* The graph-node entity store is a per-collection association list with
  load (`alookup`), upsert (`ainsert`) and delete (`aerase`).  Composite ids
  that the source builds by joining with `"-"` are kept as the joined string
  where the handlers do so (`txHash-logIndex`, `txHash-logIndex-tokenId`);
  the `UserTokenBalance` / `UserInventoryItem` id `userId + "-" + tokenId` is
  modelled as the pair `(userId, tokenId)` (the join is injective there:
  hex user ids contain no further `"-"`).
* External effects (`http.get`, `ipfs.cat`, `json.try_fromBytes`) are an
  explicit environment of oracle functions; `contract.try_uri` is modelled
  as the `uri` field carried by the creation event (`none` = reverted).
-/

namespace Subgraph

/-! ## Association-list entity store -/

/-- Load an entity by id (`Entity.load`). -/
def alookup {κ α : Type} [DecidableEq κ] (k : κ) : List (κ × α) → Option α
  | [] => none
  | (k', v) :: rest => if k' = k then some v else alookup k rest

/-- Remove an entity by id (`store.remove`). -/
def aerase {κ α : Type} [DecidableEq κ] (k : κ) (l : List (κ × α)) : List (κ × α) :=
  l.filter (fun p => !(p.1 = k : Bool))

/-- Upsert an entity (`entity.save()`): replaces any record under the same id. -/
def ainsert {κ α : Type} [DecidableEq κ] (k : κ) (v : α) (l : List (κ × α)) : List (κ × α) :=
  (k, v) :: aerase k l

/-! ## Entities (generated/schema) -/

/-- Token entity.  `metadataId` is the `metadata` reference; `forgeId` is
nullable because the null-URI path of `fetchAndParseMetadata` leaves it
unassigned. -/
structure Token where
  tokenId : Nat
  tokenType : Nat
  category : String
  subCategory : String
  soulbound : Bool
  maxSupply : Int
  currentSupply : Int
  creator : String
  createdAt : Nat
  createdAtBlock : Nat
  createdTxHash : String
  tokenURI : Option String
  metadataId : Option String
  name : String
  description : String
  image : String
  rewardId : String
  forgeId : Option String
  deriving DecidableEq

/-- TokenCreation entity, one per creation event. -/
structure TokenCreation where
  token : String
  tokenId : Nat
  tokenType : Nat
  category : String
  subCategory : String
  creator : String
  timestamp : Nat
  blockNumber : Nat
  transactionHash : String
  deriving DecidableEq

/-- TokenMint entity; the `token*` fields snapshot the Token's descriptive
fields at mint time and stay unset when the Token is unknown. -/
structure TokenMint where
  token : String
  toUser : String
  amount : Int
  timestamp : Nat
  blockNumber : Nat
  transactionHash : String
  operator : String
  tokenName : Option String
  tokenDescription : Option String
  tokenImage : Option String
  tokenCategory : Option String
  tokenSubCategory : Option String
  rewardId : Option String
  tokenForgeId : Option String
  deriving DecidableEq

/-- User entity. -/
structure User where
  address : String
  totalTokensCreated : Int
  totalTokensMinted : Int
  firstInteraction : Nat
  lastInteraction : Nat
  totalInventoryValue : Int
  deriving DecidableEq

/-- UserTokenBalance entity. -/
structure UserTokenBalance where
  user : String
  token : String
  balance : Int
  lastUpdated : Nat
  deriving DecidableEq

/-- UserInventoryItem entity (never deleted on zero balance). -/
structure UserInventoryItem where
  user : String
  token : String
  balance : Int
  firstAcquired : Nat
  tokenType : Nat
  category : String
  subCategory : String
  rewardId : String
  lastUpdated : Nat
  lastAcquired : Nat
  deriving DecidableEq

/-- RoleChange entity. -/
structure RoleChange where
  role : String
  roleName : String
  account : String
  sender : String
  granted : Bool
  timestamp : Nat
  blockNumber : Nat
  transactionHash : String
  deriving DecidableEq

/-- GlobalStats entity (single row keyed "1"). -/
structure GlobalStats where
  totalTokens : Int
  totalMints : Int
  totalUsers : Int
  totalSupply : Int
  totalEvents : Int
  lastUpdated : Nat
  deriving DecidableEq

/-- DailyStats entity, keyed by `toString (timestamp / 86400)`. -/
structure DailyStats where
  date : Nat
  tokensCreated : Int
  tokensMinted : Int
  activeUsers : Int
  totalSupplyChange : Int
  deriving DecidableEq

/-- AllEvent journal entity.  The per-kind payload fields are nullable and
left `none` by handlers of the other kinds. -/
structure AllEvent where
  eventType : String
  blockNumber : Nat
  blockHash : String
  transactionHash : String
  transactionIndex : Nat
  logIndex : Nat
  timestamp : Nat
  gasPrice : Int
  txFrom : String
  txTo : Option String
  value : Int
  description : String
  tokenId : Option Nat := none
  tokenType : Option Nat := none
  category : Option String := none
  subCategory : Option String := none
  creator : Option String := none
  fromAddress : Option String := none
  toAddress : Option String := none
  amount : Option Int := none
  amounts : Option (List Int) := none
  tokenIds : Option (List Nat) := none
  operator : Option String := none
  role : Option String := none
  roleHash : Option String := none
  account : Option String := none
  sender : Option String := none
  deriving DecidableEq

/-- TokenMetadata entity (id = token id). -/
structure TokenMetadata where
  token : String
  name : String
  description : String
  image : String
  rewardId : String
  propertiesId : Option String
  deriving DecidableEq

/-- TokenProperties entity (id = token id). -/
structure TokenProperties where
  metadata : String
  badgeType : String
  createdBy : String
  rewardId : String
  forgeId : String
  deriving DecidableEq

/-- TokenAttribute entity (id = tokenId-attr-index). -/
structure TokenAttribute where
  metadata : String
  traitType : String
  value : String
  deriving DecidableEq

/-- The derived-state store: one association-list collection per entity kind. -/
structure State where
  tokens : List (String × Token)
  tokenCreations : List (String × TokenCreation)
  tokenMints : List (String × TokenMint)
  users : List (String × User)
  balances : List ((String × String) × UserTokenBalance)
  inventoryItems : List ((String × String) × UserInventoryItem)
  roleChanges : List (String × RoleChange)
  globalStats : Option GlobalStats
  dailyStats : List (String × DailyStats)
  allEvents : List (String × AllEvent)
  tokenMetadatas : List (String × TokenMetadata)
  tokenProps : List (String × TokenProperties)
  tokenAttrs : List (String × TokenAttribute)
  deriving DecidableEq

/-- The empty store at process start. -/
def initialState : State :=
  { tokens := [], tokenCreations := [], tokenMints := [], users := [], balances := []
    inventoryItems := [], roleChanges := [], globalStats := none, dailyStats := []
    allEvents := [], tokenMetadatas := [], tokenProps := [], tokenAttrs := [] }

/-! ## Events -/

/-- Fields shared by every `ethereum.Event` the handlers read. -/
structure EvMeta where
  blockNumber : Nat
  blockHash : String
  txHash : String
  txIndex : Nat
  logIndex : Nat
  timestamp : Nat
  gasPrice : Int
  txFrom : String
  txTo : Option String
  txValue : Int
  deriving DecidableEq

/-- The event vocabulary, one constructor per handled contract event.
The creation event carries the `contract.try_uri(tokenId)` result
(`none` = call reverted). -/
inductive Ev where
  | created (m : EvMeta) (tokenId : Nat) (tokenType : Nat)
      (category subCategory : String) (uri : Option String)
  | single (m : EvMeta) (operator fromAddr toAddr : String) (id : Nat) (value : Int)
  | batch (m : EvMeta) (operator fromAddr toAddr : String)
      (ids : List Nat) (values : List Int)
  | granted (m : EvMeta) (role account sender : String)
  | revoked (m : EvMeta) (role account sender : String)
  deriving DecidableEq

/-! ## Constants (mapping.ts) -/

def MINTER_ROLE : String := "0x9f2df0fed2c77648de5860a4cc508cd0818c85b8b8a1ab4ceeef8d981c8956a6"

def DEFAULT_ADMIN_ROLE : String := "0x0000000000000000000000000000000000000000"

def ZERO_ADDRESS : String := "0x0000000000000000000000000000000000000000"

/-- Role hash to human-readable name, `getRoleName`. -/
def getRoleName (role : String) : String :=
  if role = MINTER_ROLE then "MINTER"
  else if role = DEFAULT_ADMIN_ROLE then "DEFAULT_ADMIN"
  else "UNKNOWN"

/-! ## Aggregate maintainers -/

/-- `updateGlobalStats`: load-or-create row "1", add the requested counters,
always bump `totalEvents`, stamp `lastUpdated`. -/
def updateGlobalStats (s : State) (timestamp : Nat)
    (incrementTokens incrementMints incrementUsers : Bool) : State :=
  let g :=
    match s.globalStats with
    | some g => g
    | none =>
        { totalTokens := 0, totalMints := 0, totalUsers := 0, totalSupply := 0
          totalEvents := 0, lastUpdated := 0 }
  let g := if incrementTokens then { g with totalTokens := g.totalTokens + 1 } else g
  let g := if incrementMints then { g with totalMints := g.totalMints + 1 } else g
  let g := if incrementUsers then { g with totalUsers := g.totalUsers + 1 } else g
  let g := { g with totalEvents := g.totalEvents + 1, lastUpdated := timestamp }
  { s with globalStats := some g }

/-- `updateDailyStats`: bucket by `timestamp / 86400`, add the requested
counters, always bump `activeUsers`. -/
def updateDailyStats (s : State) (timestamp : Nat)
    (incrementTokens incrementMints : Bool) : State :=
  let dateKey := toString (timestamp / 86400)
  let d :=
    match alookup dateKey s.dailyStats with
    | some d => d
    | none =>
        { date := timestamp / 86400, tokensCreated := 0, tokensMinted := 0
          activeUsers := 0, totalSupplyChange := 0 }
  let d := if incrementTokens then { d with tokensCreated := d.tokensCreated + 1 } else d
  let d := if incrementMints then { d with tokensMinted := d.tokensMinted + 1 } else d
  let d := { d with activeUsers := d.activeUsers + 1 }
  { s with dailyStats := ainsert dateKey d s.dailyStats }

/-- The source's no-op guard `if (user.firstInteraction.equals(0))
user.firstInteraction = 0` (mapping.ts lines 522-524): writes the value it
just read. -/
def touchFirstInteraction (u : User) : User :=
  if u.firstInteraction = 0 then { u with firstInteraction := 0 } else u

/-- `getOrCreateUser`: load by address, else create a zeroed user and bump
the global user counter (which also bumps `totalEvents`), then save. -/
def getOrCreateUser (s : State) (address : String) : User × State :=
  match alookup address s.users with
  | some user =>
      let user := touchFirstInteraction user
      (user, { s with users := ainsert address user s.users })
  | none =>
      let s := updateGlobalStats s 0 false false true
      let user : User :=
        { address := address, totalTokensCreated := 0, totalTokensMinted := 0
          firstInteraction := 0, lastInteraction := 0, totalInventoryValue := 0 }
      let user := touchFirstInteraction user
      (user, { s with users := ainsert address user s.users })

/-- `updateUserBalance`: load-or-zero the (user, token) balance, add the
signed delta; delete the record when the new balance is exactly zero, else
upsert it with the event timestamp; then touch the owning user's
last-interaction and signed inventory-value accumulator. -/
def updateUserBalance (s : State) (address : String) (tokenId : Nat)
    (amount : Int) (timestamp : Nat) : State :=
  let tokenIdString := toString tokenId
  let balanceKey := (address, tokenIdString)
  let bal :=
    match alookup balanceKey s.balances with
    | some b => b
    | none => { user := address, token := tokenIdString, balance := 0, lastUpdated := 0 }
  let bal := { bal with balance := bal.balance + amount, lastUpdated := timestamp }
  let s :=
    if bal.balance = 0 then { s with balances := aerase balanceKey s.balances }
    else { s with balances := ainsert balanceKey bal s.balances }
  let us := getOrCreateUser s address
  let user :=
    { us.1 with totalInventoryValue := us.1.totalInventoryValue + amount,
                lastInteraction := timestamp }
  { us.2 with users := ainsert address user us.2.users }

/-! ## Metadata resolver (fetchAndParseMetadata) -/

/-- JSON values as produced by `json.try_fromBytes`. -/
inductive JsonValue where
  | jnull
  | jbool (b : Bool)
  | jnum (n : Int)
  | jstr (s : String)
  | jarr (elems : List JsonValue)
  | jobj (fields : List (String × JsonValue))

/-- `JSONValue.toObject`; the source only calls it on parsed objects (a
non-object would abort the AssemblyScript host, never reached here). -/
def jsonToObject : JsonValue → List (String × JsonValue)
  | .jobj fields => fields
  | _ => []

/-- `JSONValue.toString`; the source only calls it on string-kind values. -/
def jsonToString : JsonValue → String
  | .jstr s => s
  | _ => ""

/-- `obj.get(key)`: `null` when the key is missing. -/
def objGet (fields : List (String × JsonValue)) (key : String) : Option JsonValue :=
  alookup key fields

/-- `tokenURI.startsWith(p)`, over the character list (the built-in
`String.startsWith` does not reduce in the kernel). -/
def strStartsWith (s p : String) : Bool :=
  p.data.isPrefixOf s.data

/-- `tokenURI.replace("ipfs://", "").split("/")[0]` for a URI that starts
with `ipfs://` (the only case the source computes it in): drop the 7-char
scheme prefix and take up to the first `/`. -/
def ipfsHashOf (s : String) : String :=
  ⟨(s.data.drop 7).takeWhile (fun c => !(c = '/' : Bool))⟩

/-- Response of `http.get`. -/
structure HttpResponse where
  status : Nat
  body : String

/-- Oracle environment for the external effects of the resolver. -/
structure Env where
  httpGet : String → Option HttpResponse
  ipfsCat : String → Option String
  jsonFromBytes : String → Option JsonValue

/-- One retrieval + parse pass over the URI, shared by the metadata pass and
the properties pass of `fetchAndParseMetadata` (the source repeats this block
inline twice, lines 44-137 and 146-173): HTTP scheme needs a response with
status 200 and a parsable body; `ipfs://` needs `ipfs.cat` content that
parses; any other scheme fetches nothing. -/
def fetchJson (env : Env) (uri : String) : Option (List (String × JsonValue)) :=
  if strStartsWith uri "http" then
    match env.httpGet uri with
    | some resp =>
        if resp.status = 200 then
          match env.jsonFromBytes resp.body with
          | some j => some (jsonToObject j)
          | none => none
        else none
    | none => none
  else if strStartsWith uri "ipfs://" then
    match env.ipfsCat (ipfsHashOf uri) with
    | some bytes =>
        match env.jsonFromBytes bytes with
        | some j => some (jsonToObject j)
        | none => none
    | none => none
  else none

/-- Field extraction on a successful parse: each recognized field overwrites
the default when present (the source also reads `forge_id` here but leaves it
unused in the first pass). -/
def applyMetadataFields (md : TokenMetadata) (fields : List (String × JsonValue)) :
    TokenMetadata :=
  let md := match objGet fields "name" with
    | some v => { md with name := jsonToString v }
    | none => md
  let md := match objGet fields "description" with
    | some v => { md with description := jsonToString v }
    | none => md
  let md := match objGet fields "image" with
    | some v => { md with image := jsonToString v }
    | none => md
  match objGet fields "rewardId" with
  | some v => { md with rewardId := jsonToString v }
  | none => md

/-- Materialize one TokenAttribute per element of an `attributes` array whose
elements carry both `trait_type` and `value`; elements missing either are
skipped.  Ids are `tokenId-attr-index`. -/
def saveAttributes (store : List (String × TokenAttribute)) (tokenId : String)
    (fields : List (String × JsonValue)) : List (String × TokenAttribute) :=
  match objGet fields "attributes" with
  | some (.jarr elems) =>
      elems.enum.foldl
        (fun store p =>
          let attrObj := jsonToObject p.2
          match objGet attrObj "trait_type", objGet attrObj "value" with
          | some tt, some v =>
              let attrId := tokenId ++ "-attr-" ++ toString p.1
              ainsert attrId
                { metadata := tokenId, traitType := jsonToString tt, value := jsonToString v }
                store
          | _, _ => store)
        store
  | _ => store

/-- `fetchAndParseMetadata`.  Starts from the defaults
(`"Token <id>"` / `"Description for token <id>"` / empty image and reward id),
saves and returns them immediately on a null URI (no TokenProperties record in
that case); otherwise enriches from the parsed payload when retrieval
succeeds, then runs the second retrieval pass for `forge_id` into the
TokenProperties companion (also overwriting `metadata.rewardId`), and saves
properties then metadata.  The declared `TokenMetadata | null` return type
notwithstanding, the source never returns null, so the result is total. -/
def fetchAndParseMetadata (env : Env) (s : State) (tokenId : String)
    (tokenURI : Option String) : State × TokenMetadata :=
  let metadata : TokenMetadata :=
    { token := tokenId, name := "Token " ++ tokenId,
      description := "Description for token " ++ tokenId,
      image := "", rewardId := "", propertiesId := none }
  match tokenURI with
  | none =>
      ({ s with tokenMetadatas := ainsert tokenId metadata s.tokenMetadatas }, metadata)
  | some uri =>
      let sm :=
        match fetchJson env uri with
        | some fields =>
            ({ s with tokenAttrs := saveAttributes s.tokenAttrs tokenId fields },
             applyMetadataFields metadata fields)
        | none => (s, metadata)
      let s := sm.1
      let metadata := sm.2
      let properties : TokenProperties :=
        { metadata := tokenId, badgeType := "", createdBy := "",
          rewardId := metadata.rewardId, forgeId := "" }
      let pm :=
        match fetchJson env uri with
        | some fields =>
            match objGet fields "forge_id" with
            | some fid =>
                ({ properties with forgeId := jsonToString fid },
                 { metadata with rewardId := jsonToString fid })
            | none => (properties, metadata)
        | none => (properties, metadata)
      let s := { s with tokenProps := ainsert tokenId pm.1 s.tokenProps }
      let metadata := { pm.2 with propertiesId := some tokenId }
      let s := { s with tokenMetadatas := ainsert tokenId metadata s.tokenMetadatas }
      (s, metadata)

/-! ## Event handlers -/

/-- Journal entry skeleton shared by every handler: raw event metadata plus a
type tag and description; payload fields default to `none`. -/
def baseAllEvent (m : EvMeta) (eventType description : String) : AllEvent :=
  { eventType := eventType, blockNumber := m.blockNumber, blockHash := m.blockHash,
    transactionHash := m.txHash, transactionIndex := m.txIndex, logIndex := m.logIndex,
    timestamp := m.timestamp, gasPrice := m.gasPrice, txFrom := m.txFrom,
    txTo := m.txTo, value := m.txValue, description := description }

/-- Journal id `txHash-logIndex` used by every AllEvent (and TokenCreation /
RoleChange) record. -/
def eventIdOf (m : EvMeta) : String :=
  m.txHash ++ "-" ++ toString m.logIndex

/-- `handleTokenMint` (mint sub-transition, called for transfers from the
zero address): TokenMint snapshot (id `txHash-logIndex-tokenId`), supply
increment when the Token exists, destination balance update, inventory item
upsert, destination user's mint counter, global + daily counters, journal
entry (id `txHash-logIndex`, without the token id). -/
def handleTokenMint (s : State) (m : EvMeta) (toAddr : String) (tokenId : Nat)
    (amount : Int) (operator : String) : State :=
  let tokenIdString := toString tokenId
  let mintId := m.txHash ++ "-" ++ toString m.logIndex ++ "-" ++ tokenIdString
  let us0 := getOrCreateUser s toAddr
  let s := us0.2
  let tokenEntity := alookup tokenIdString s.tokens
  let mint : TokenMint :=
    { token := tokenIdString, toUser := us0.1.address, amount := amount,
      timestamp := m.timestamp, blockNumber := m.blockNumber,
      transactionHash := m.txHash, operator := operator,
      tokenName := tokenEntity.map (fun t => t.name),
      tokenDescription := tokenEntity.map (fun t => t.description),
      tokenImage := tokenEntity.map (fun t => t.image),
      tokenCategory := tokenEntity.map (fun t => t.category),
      tokenSubCategory := tokenEntity.map (fun t => t.subCategory),
      rewardId := tokenEntity.map (fun t => t.rewardId),
      tokenForgeId := tokenEntity.bind (fun t => t.forgeId) }
  let s := { s with tokenMints := ainsert mintId mint s.tokenMints }
  let s :=
    match tokenEntity with
    | some t =>
        { s with tokens :=
            ainsert tokenIdString { t with currentSupply := t.currentSupply + amount } s.tokens }
    | none => s
  let s := updateUserBalance s toAddr tokenId amount m.timestamp
  let invKey := (toAddr, tokenIdString)
  let its :=
    match alookup invKey s.inventoryItems with
    | some it => (it, s)
    | none =>
        let us1 := getOrCreateUser s toAddr
        let fresh : UserInventoryItem :=
          { user := us1.1.address, token := tokenIdString, balance := 0,
            firstAcquired := m.timestamp,
            tokenType := (tokenEntity.map (fun (t : Token) => t.tokenType)).getD 0,
            category := (tokenEntity.map (fun (t : Token) => t.category)).getD "",
            subCategory := (tokenEntity.map (fun (t : Token) => t.subCategory)).getD "",
            rewardId := (tokenEntity.map (fun (t : Token) => t.rewardId)).getD "",
            lastUpdated := 0, lastAcquired := 0 }
        (fresh, us1.2)
  let item :=
    { its.1 with balance := its.1.balance + amount,
                 lastUpdated := m.timestamp, lastAcquired := m.timestamp }
  let s := { its.2 with inventoryItems := ainsert invKey item its.2.inventoryItems }
  let us := getOrCreateUser s toAddr
  let user :=
    { us.1 with totalTokensMinted := us.1.totalTokensMinted + amount,
                lastInteraction := m.timestamp }
  let s := { us.2 with users := ainsert toAddr user us.2.users }
  let s := updateGlobalStats s m.timestamp false true false
  let s := updateDailyStats s m.timestamp false true
  let allEvent :=
    { baseAllEvent m "TokenMint" ("Mint of token ID: " ++ tokenIdString) with
      toAddress := some toAddr, amount := some amount,
      operator := some operator, tokenId := some tokenId }
  { s with allEvents := ainsert (eventIdOf m) allEvent s.allEvents }

/-- `handleTransferSingle`: transfers from the zero address delegate to the
mint sub-transition; otherwise decrement the source balance, increment the
destination balance, and journal the transfer. -/
def handleTransferSingle (s : State) (m : EvMeta)
    (operator fromAddr toAddr : String) (id : Nat) (value : Int) : State :=
  if fromAddr = ZERO_ADDRESS then
    handleTokenMint s m toAddr id value operator
  else
    let s := updateUserBalance s fromAddr id (-value) m.timestamp
    let s := updateUserBalance s toAddr id value m.timestamp
    let allEvent :=
      { baseAllEvent m "TransferSingle" ("Single transfer of token ID: " ++ toString id) with
        fromAddress := some fromAddr, toAddress := some toAddr,
        amount := some value, operator := some operator, tokenId := some id }
    { s with allEvents := ainsert (eventIdOf m) allEvent s.allEvents }

/-- Journal entry written once for a whole batch transfer. -/
def batchAllEvent (m : EvMeta) (operator fromAddr toAddr : String)
    (ids : List Nat) (values : List Int) : AllEvent :=
  { baseAllEvent m "TransferBatch" "Batch transfer of tokens" with
    fromAddress := some fromAddr, toAddress := some toAddr,
    amounts := some values, tokenIds := some ids, operator := some operator }

/-- Loop body of `handleTransferBatch` for one (id, amount) element: mint
when the batch source is the zero address, else a plain transfer. -/
def batchStep (m : EvMeta) (operator fromAddr toAddr : String)
    (s : State) (p : Nat × Int) : State :=
  if fromAddr = ZERO_ADDRESS then
    handleTokenMint s m toAddr p.1 p.2 operator
  else
    let s := updateUserBalance s fromAddr p.1 (-p.2) m.timestamp
    updateUserBalance s toAddr p.1 p.2 m.timestamp

/-- `handleTransferBatch`: expand the parallel id/amount arrays element-wise
into mints (zero-address source) or plain transfers, then write one journal
entry for the whole batch.  The source indexes `ids[i]`/`values[i]` over
`ids.length`; the arrays always have equal length for well-formed ERC-1155
events, modelled as `ids.zip values`. -/
def handleTransferBatch (s : State) (m : EvMeta)
    (operator fromAddr toAddr : String) (ids : List Nat) (values : List Int) : State :=
  let s := (ids.zip values).foldl (batchStep m operator fromAddr toAddr) s
  { s with allEvents :=
      ainsert (eventIdOf m) (batchAllEvent m operator fromAddr toAddr ids values) s.allEvents }

/-- `handleTokenCreated`: load-or-create the Token (an existing Token is left
entirely untouched — supply, creator and metadata are only written inside the
creation branch), resolve metadata for new tokens, then unconditionally
create a TokenCreation record, journal the event, bump the creator's creation
counter, and bump global + daily counters. -/
def handleTokenCreated (env : Env) (s : State) (m : EvMeta) (tokenId : Nat)
    (tokenType : Nat) (category subCategory : String) (uri : Option String) : State :=
  let tokenIdString := toString tokenId
  let s :=
    match alookup tokenIdString s.tokens with
    | some _ => s
    | none =>
        let sm := fetchAndParseMetadata env s tokenIdString uri
        let s := sm.1
        let md := sm.2
        -- lines 206-208: re-save the metadata with its token reference
        let s := { s with tokenMetadatas :=
                    ainsert tokenIdString { md with token := tokenIdString } s.tokenMetadatas }
        let forgeId : Option String :=
          match md.propertiesId with
          | some pid => (alookup pid s.tokenProps).map (fun p => p.forgeId)
          | none => none
        let token : Token :=
          { tokenId := tokenId, tokenType := tokenType, category := category,
            subCategory := subCategory, soulbound := false, maxSupply := 0,
            currentSupply := 0, creator := m.txFrom, createdAt := m.timestamp,
            createdAtBlock := m.blockNumber, createdTxHash := m.txHash,
            tokenURI := uri, metadataId := some tokenIdString,
            name := md.name, description := md.description, image := md.image,
            rewardId := md.rewardId, forgeId := forgeId }
        { s with tokens := ainsert tokenIdString token s.tokens }
  let us0 := getOrCreateUser s m.txFrom
  let s := us0.2
  let creation : TokenCreation :=
    { token := tokenIdString, tokenId := tokenId, tokenType := tokenType,
      category := category, subCategory := subCategory, creator := us0.1.address,
      timestamp := m.timestamp, blockNumber := m.blockNumber,
      transactionHash := m.txHash }
  let s := { s with tokenCreations := ainsert (eventIdOf m) creation s.tokenCreations }
  let allEvent :=
    { baseAllEvent m "TokenCreated" ("Token created with ID: " ++ tokenIdString) with
      tokenId := some tokenId, tokenType := some tokenType,
      category := some category, subCategory := some subCategory,
      creator := some m.txFrom }
  let s := { s with allEvents := ainsert (eventIdOf m) allEvent s.allEvents }
  let us := getOrCreateUser s m.txFrom
  let user :=
    { us.1 with totalTokensCreated := us.1.totalTokensCreated + 1,
                lastInteraction := m.timestamp }
  let s := { us.2 with users := ainsert m.txFrom user us.2.users }
  let s := updateGlobalStats s m.timestamp true false false
  updateDailyStats s m.timestamp true false

/-- `handleRoleGranted`: append a RoleChange, touch the account's
last-interaction, journal the event.  No global/daily counter updates beyond
any implicit new-user creation. -/
def handleRoleGranted (s : State) (m : EvMeta) (role account sender : String) : State :=
  let us0 := getOrCreateUser s account
  let s := us0.2
  let rc : RoleChange :=
    { role := role, roleName := getRoleName role, account := us0.1.address,
      sender := sender, granted := true, timestamp := m.timestamp,
      blockNumber := m.blockNumber, transactionHash := m.txHash }
  let s := { s with roleChanges := ainsert (eventIdOf m) rc s.roleChanges }
  let us := getOrCreateUser s account
  let user := { us.1 with lastInteraction := m.timestamp }
  let s := { us.2 with users := ainsert account user us.2.users }
  let allEvent :=
    { baseAllEvent m "RoleGranted" ("Role granted: " ++ getRoleName role) with
      role := some role, roleHash := some role,
      account := some account, sender := some sender }
  { s with allEvents := ainsert (eventIdOf m) allEvent s.allEvents }

/-- `handleRoleRevoked`: mirror of `handleRoleGranted` with `granted = false`. -/
def handleRoleRevoked (s : State) (m : EvMeta) (role account sender : String) : State :=
  let us0 := getOrCreateUser s account
  let s := us0.2
  let rc : RoleChange :=
    { role := role, roleName := getRoleName role, account := us0.1.address,
      sender := sender, granted := false, timestamp := m.timestamp,
      blockNumber := m.blockNumber, transactionHash := m.txHash }
  let s := { s with roleChanges := ainsert (eventIdOf m) rc s.roleChanges }
  let us := getOrCreateUser s account
  let user := { us.1 with lastInteraction := m.timestamp }
  let s := { us.2 with users := ainsert account user us.2.users }
  let allEvent :=
    { baseAllEvent m "RoleRevoked" ("Role revoked: " ++ getRoleName role) with
      role := some role, roleHash := some role,
      account := some account, sender := some sender }
  { s with allEvents := ainsert (eventIdOf m) allEvent s.allEvents }

/-- The state machine: dispatch one ordered event to its handler. -/
def processEvent (env : Env) (s : State) : Ev → State
  | .created m tokenId tokenType category subCategory uri =>
      handleTokenCreated env s m tokenId tokenType category subCategory uri
  | .single m operator fromAddr toAddr id value =>
      handleTransferSingle s m operator fromAddr toAddr id value
  | .batch m operator fromAddr toAddr ids values =>
      handleTransferBatch s m operator fromAddr toAddr ids values
  | .granted m role account sender => handleRoleGranted s m role account sender
  | .revoked m role account sender => handleRoleRevoked s m role account sender

/-- Apply an ordered event sequence, one event at a time. -/
def applyEvents (env : Env) (s : State) (evs : List Ev) : State :=
  evs.foldl (processEvent env) s

/-! ## Dev-server: event orderer and chunked backfill scheduler -/

/-- A raw fetched log as the dev server sorts it: tagged with its event kind
at fetch time; `logIndex` may be missing (the comparator reads
`a.logIndex || 0`). -/
structure RawEv where
  eventName : String
  blockNumber : Nat
  logIndex : Option Nat
  txHash : String
  deriving DecidableEq

/-- The sort order of the combined event list: block number ascending, then
log index ascending (missing log index counts as 0). -/
def rawEvLe (a b : RawEv) : Bool :=
  a.blockNumber < b.blockNumber ||
    (a.blockNumber == b.blockNumber && (a.logIndex.getD 0 ≤ b.logIndex.getD 0))

/-- The event orderer: concatenate the five independently-fetched per-kind
lists and sort by (block number, log index).  JavaScript `Array.sort` is a
stable sort, modelled by `List.mergeSort`. -/
def mergeEvents (tokenCreated transferSingle transferBatch
    roleGranted roleRevoked : List RawEv) : List RawEv :=
  (tokenCreated ++ transferSingle ++ transferBatch ++ roleGranted ++ roleRevoked).mergeSort
    rawEvLe

/-- `maxBlockRange` of the dev server ("Stay under 50k limit"). -/
def maxBlockRange : Nat := 45000

/-- The chunking loop of `getEventsWithRetryInChunks`:
`while (from < end) { to := min (from + maxRange) end; issue [from, to];
from := to + 1 }`.  Returns the inclusive sub-ranges issued, in order;
retries only affect what a chunk's query returns, never which ranges are
issued, so they are not modelled here. -/
def chunkRanges (fromBlock endBlock maxRange : Nat) : List (Nat × Nat) :=
  if h : fromBlock < endBlock then
    (fromBlock, min (fromBlock + maxRange) endBlock) ::
      chunkRanges (min (fromBlock + maxRange) endBlock + 1) endBlock maxRange
  else []
termination_by endBlock - fromBlock
decreasing_by
  have h1 : fromBlock ≤ min (fromBlock + maxRange) endBlock :=
    le_min (Nat.le_add_right fromBlock maxRange) (Nat.le_of_lt h)
  omega

/-- Number of issued sub-ranges containing a given block. -/
def coverCount (chunks : List (Nat × Nat)) (b : Nat) : Nat :=
  chunks.countP (fun c => c.1 ≤ b && b ≤ c.2)

/-! ## Derived observations used by the stated properties -/

/-- Sum of all UserTokenBalance balances recorded for one token. -/
def sumBalances (bs : List ((String × String) × UserTokenBalance)) (tid : String) : Int :=
  ((bs.filter fun p => decide (p.1.2 = tid)).map fun p => p.2.balance).sum

/-- A token's current supply, 0 when no Token entity exists. -/
def supplyOr0 (s : State) (tid : String) : Int :=
  match alookup tid s.tokens with
  | some t => t.currentSupply
  | none => 0

/-- Keys of an association-list collection are pairwise distinct (holds for
every collection the handlers build, since `ainsert` erases first). -/
def KeysOnce {κ α : Type} (l : List (κ × α)) : Prop :=
  l.Pairwise (fun p q => p.1 ≠ q.1)

/-- No balance record carries balance exactly zero. -/
def NoZero (bs : List ((String × String) × UserTokenBalance)) : Prop :=
  ∀ p ∈ bs, p.2.balance ≠ 0

/-- Conservation invariant: balance keys unique, and per-token balance sums
match the recorded supply (0 for unknown tokens). -/
def ConsInv (s : State) : Prop :=
  KeysOnce s.balances ∧ ∀ tid, sumBalances s.balances tid = supplyOr0 s tid

/-- An event is mint-safe in a state when any mint it performs (transfer from
the zero address) targets a token whose Token entity already exists. -/
def mintSafe (s : State) : Ev → Bool
  | .single _ _ fromAddr _ id _ =>
      if fromAddr = ZERO_ADDRESS then (alookup (toString id) s.tokens).isSome else true
  | .batch _ _ fromAddr _ ids _ =>
      if fromAddr = ZERO_ADDRESS then
        ids.all fun id => (alookup (toString id) s.tokens).isSome
      else true
  | _ => true

/-- A trace is good when every event is mint-safe in the state it is applied
to: every minted token id has its Token entity created beforehand. -/
def goodTrace (env : Env) : State → List Ev → Bool
  | _, [] => true
  | s, e :: es => mintSafe s e && goodTrace env (processEvent env s e) es

/-! ## Association-list lemmas -/

theorem alookup_ainsert_self {κ α : Type} [DecidableEq κ] (k : κ) (v : α) (l : List (κ × α)) :
    alookup k (ainsert k v l) = some v := by
  simp [ainsert, alookup]

theorem alookup_aerase_self {κ α : Type} [DecidableEq κ] (k : κ) (l : List (κ × α)) :
    alookup k (aerase k l) = none := by
  induction l with
  | nil => rfl
  | cons p rest ih =>
      simp only [aerase, List.filter_cons] at ih ⊢
      by_cases hp : p.1 = k
      · simpa [hp] using ih
      · simpa [hp, alookup] using ih

theorem alookup_aerase_ne {κ α : Type} [DecidableEq κ] {k k' : κ} (l : List (κ × α))
    (h : k ≠ k') : alookup k' (aerase k l) = alookup k' l := by
  induction l with
  | nil => rfl
  | cons p rest ih =>
      simp only [aerase, List.filter_cons] at ih ⊢
      by_cases hp : p.1 = k
      · simpa [hp, h, alookup] using ih
      · by_cases hk' : p.1 = k'
        · simp [hp, hk', alookup, Ne.symm h]
        · simpa [hp, hk', alookup] using ih

theorem alookup_ainsert_ne {κ α : Type} [DecidableEq κ] {k k' : κ} (v : α) (l : List (κ × α))
    (h : k ≠ k') : alookup k' (ainsert k v l) = alookup k' l := by
  have := @alookup_aerase_ne _ _ _ k k' l h
  simp only [ainsert, alookup, h, if_false] at this ⊢
  simpa [aerase] using this

theorem aerase_of_alookup_none {κ α : Type} [DecidableEq κ] {k : κ} {l : List (κ × α)}
    (h : alookup k l = none) : aerase k l = l := by
  induction l with
  | nil => rfl
  | cons p rest ih =>
      simp only [alookup] at h
      by_cases hp : p.1 = k
      · simp [hp] at h
      · simp only [hp, if_false] at h
        simp only [aerase, List.filter_cons]
        have := ih h
        simp only [aerase] at this
        simp [hp, this]

theorem length_ainsert_of_none {κ α : Type} [DecidableEq κ] {k : κ} (v : α) {l : List (κ × α)}
    (h : alookup k l = none) : (ainsert k v l).length = l.length + 1 := by
  simp [ainsert, aerase_of_alookup_none h]

theorem ainsert_ainsert_same {κ α : Type} [DecidableEq κ] (k : κ) (v w : α) (l : List (κ × α)) :
    ainsert k v (ainsert k w l) = ainsert k v l := by
  simp only [ainsert, aerase, List.filter_cons]
  simp [List.filter_filter]

theorem keysOnce_aerase {κ α : Type} [DecidableEq κ] (k : κ) {l : List (κ × α)}
    (h : KeysOnce l) : KeysOnce (aerase k l) :=
  List.Pairwise.filter _ h

theorem keysOnce_ainsert {κ α : Type} [DecidableEq κ] (k : κ) (v : α) {l : List (κ × α)}
    (h : KeysOnce l) : KeysOnce (ainsert k v l) := by
  refine List.Pairwise.cons ?_ (keysOnce_aerase k h)
  intro q hq
  have := List.of_mem_filter hq
  simp at this
  exact fun hk => this (by rw [← hk])

theorem alookup_eq_none_of_keys_ne {κ α : Type} [DecidableEq κ] {k : κ} {l : List (κ × α)}
    (h : ∀ p ∈ l, p.1 ≠ k) : alookup k l = none := by
  induction l with
  | nil => rfl
  | cons p rest ih =>
      have hp := h p (List.mem_cons_self p rest)
      simp only [alookup, hp, if_false]
      exact ih fun q hq => h q (List.mem_cons_of_mem p hq)

/-! ## Balance-sum lemmas -/

/-- The balance currently recorded under a key, 0 when absent. -/
def oldBal (bs : List ((String × String) × UserTokenBalance)) (k : String × String) : Int :=
  match alookup k bs with
  | some b => b.balance
  | none => 0

theorem sumBalances_cons (p : (String × String) × UserTokenBalance) (rest) (tid : String) :
    sumBalances (p :: rest) tid =
      (if p.1.2 = tid then p.2.balance else 0) + sumBalances rest tid := by
  by_cases hc : p.1.2 = tid <;> simp [sumBalances, List.filter_cons, hc]

theorem sumBalances_aerase {bs : List ((String × String) × UserTokenBalance)}
    (h : KeysOnce bs) (k : String × String) (tid : String) :
    sumBalances (aerase k bs) tid =
      sumBalances bs tid - (if k.2 = tid then oldBal bs k else 0) := by
  induction bs with
  | nil => simp [sumBalances, aerase, oldBal, alookup]
  | cons p rest ih =>
      rw [KeysOnce, List.pairwise_cons] at h
      obtain ⟨hhead, htail⟩ := h
      by_cases hp : p.1 = k
      · have hnone : alookup k rest = none :=
          alookup_eq_none_of_keys_ne fun q hq hqk => hhead q hq (by rw [hp, hqk])
        have herase : aerase k (p :: rest) = rest := by
          have := aerase_of_alookup_none hnone
          simp [aerase, List.filter_cons, hp] at this ⊢
          simpa [aerase] using this
        rw [herase, sumBalances_cons]
        have hob : oldBal (p :: rest) k = p.2.balance := by simp [oldBal, alookup, hp]
        rw [hob, ← hp]
        split_ifs <;> omega
      · have herase : aerase k (p :: rest) = p :: aerase k rest := by
          simp [aerase, List.filter_cons, hp]
        rw [herase, sumBalances_cons, sumBalances_cons, ih htail]
        have hob : oldBal (p :: rest) k = oldBal rest k := by simp [oldBal, alookup, hp]
        rw [hob]
        split_ifs <;> omega

theorem sumBalances_ainsert {bs : List ((String × String) × UserTokenBalance)}
    (h : KeysOnce bs) (k : String × String) (b : UserTokenBalance) (tid : String) :
    sumBalances (ainsert k b bs) tid =
      sumBalances bs tid - (if k.2 = tid then oldBal bs k else 0) +
        (if k.2 = tid then b.balance else 0) := by
  rw [ainsert, sumBalances_cons, sumBalances_aerase h]
  dsimp only
  split_ifs <;> omega

/-! ## Frame lemmas: which collections each helper leaves untouched -/

theorem ugs_tokens (s t a b c) : (updateGlobalStats s t a b c).tokens = s.tokens := rfl

theorem ugs_balances (s t a b c) : (updateGlobalStats s t a b c).balances = s.balances := rfl

theorem ugs_allEvents (s t a b c) : (updateGlobalStats s t a b c).allEvents = s.allEvents := rfl

theorem ugs_tokenCreations (s t a b c) :
    (updateGlobalStats s t a b c).tokenCreations = s.tokenCreations := rfl

theorem ugs_tokenMints (s t a b c) : (updateGlobalStats s t a b c).tokenMints = s.tokenMints := rfl

theorem ugs_users (s t a b c) : (updateGlobalStats s t a b c).users = s.users := rfl

theorem ugs_dailyStats (s t a b c) : (updateGlobalStats s t a b c).dailyStats = s.dailyStats := rfl

theorem uds_tokens (s t a b) : (updateDailyStats s t a b).tokens = s.tokens := rfl

theorem uds_balances (s t a b) : (updateDailyStats s t a b).balances = s.balances := rfl

theorem uds_allEvents (s t a b) : (updateDailyStats s t a b).allEvents = s.allEvents := rfl

theorem uds_tokenCreations (s t a b) :
    (updateDailyStats s t a b).tokenCreations = s.tokenCreations := rfl

theorem uds_tokenMints (s t a b) : (updateDailyStats s t a b).tokenMints = s.tokenMints := rfl

theorem uds_users (s t a b) : (updateDailyStats s t a b).users = s.users := rfl

theorem uds_globalStats (s t a b) : (updateDailyStats s t a b).globalStats = s.globalStats := rfl

theorem gocu_tokens (s a) : (getOrCreateUser s a).2.tokens = s.tokens := by
  unfold getOrCreateUser
  cases h : alookup a s.users <;> simp [updateGlobalStats]

theorem gocu_balances (s a) : (getOrCreateUser s a).2.balances = s.balances := by
  unfold getOrCreateUser
  cases h : alookup a s.users <;> simp [updateGlobalStats]

theorem gocu_allEvents (s a) : (getOrCreateUser s a).2.allEvents = s.allEvents := by
  unfold getOrCreateUser
  cases h : alookup a s.users <;> simp [updateGlobalStats]

theorem gocu_tokenCreations (s a) :
    (getOrCreateUser s a).2.tokenCreations = s.tokenCreations := by
  unfold getOrCreateUser
  cases h : alookup a s.users <;> simp [updateGlobalStats]

theorem gocu_tokenMints (s a) : (getOrCreateUser s a).2.tokenMints = s.tokenMints := by
  unfold getOrCreateUser
  cases h : alookup a s.users <;> simp [updateGlobalStats]

theorem gocu_inventoryItems (s a) :
    (getOrCreateUser s a).2.inventoryItems = s.inventoryItems := by
  unfold getOrCreateUser
  cases h : alookup a s.users <;> simp [updateGlobalStats]

theorem gocu_dailyStats (s a) : (getOrCreateUser s a).2.dailyStats = s.dailyStats := by
  unfold getOrCreateUser
  cases h : alookup a s.users <;> simp [updateGlobalStats]

theorem gocu_roleChanges (s a) : (getOrCreateUser s a).2.roleChanges = s.roleChanges := by
  unfold getOrCreateUser
  cases h : alookup a s.users <;> simp [updateGlobalStats]

/-- An existing user is re-saved unchanged and the stats row stays untouched. -/
theorem gocu_globalStats_of_present (s a) (h : (alookup a s.users).isSome) :
    (getOrCreateUser s a).2.globalStats = s.globalStats := by
  unfold getOrCreateUser
  cases hu : alookup a s.users with
  | none => rw [hu] at h; simp at h
  | some u => simp

/-- The no-op guard writes back the value it read. -/
theorem touchFirstInteraction_id (u : User) : touchFirstInteraction u = u := by
  unfold touchFirstInteraction
  split
  · next h0 => cases u; simp_all
  · rfl

/-- The value returned by `getOrCreateUser` for an existing user. -/
theorem gocu_val_of_present (s a u) (h : alookup a s.users = some u) :
    (getOrCreateUser s a).1 = u := by
  unfold getOrCreateUser
  rw [h]
  simp [touchFirstInteraction_id]

/-- `getOrCreateUser` re-saves the looked-up user unchanged when present. -/
theorem gocu_users_of_present (s a u) (h : alookup a s.users = some u) :
    (getOrCreateUser s a).2.users = ainsert a u s.users := by
  unfold getOrCreateUser
  rw [h]
  simp [touchFirstInteraction_id]

/-- Users are never deleted: presence is monotone under `getOrCreateUser`. -/
theorem gocu_user_present (s a b) (h : (alookup b s.users).isSome) :
    (alookup b (getOrCreateUser s a).2.users).isSome := by
  unfold getOrCreateUser
  by_cases hab : a = b
  · subst hab
    cases hu : alookup a s.users <;> simp [alookup_ainsert_self]
  · cases hu : alookup a s.users <;>
      simp [alookup_ainsert_ne _ _ hab, updateGlobalStats, h]

/-- Effect of `updateUserBalance` on the balance collection alone, as a pure
function of that collection. -/
def uubBalances (bs : List ((String × String) × UserTokenBalance)) (address : String)
    (tokenId : Nat) (amount : Int) (timestamp : Nat) :
    List ((String × String) × UserTokenBalance) :=
  let tokenIdString := toString tokenId
  let balanceKey := (address, tokenIdString)
  let bal :=
    match alookup balanceKey bs with
    | some b => b
    | none => { user := address, token := tokenIdString, balance := 0, lastUpdated := 0 }
  let bal := { bal with balance := bal.balance + amount, lastUpdated := timestamp }
  if bal.balance = 0 then aerase balanceKey bs else ainsert balanceKey bal bs

theorem uub_balances (s a tid amt ts) :
    (updateUserBalance s a tid amt ts).balances = uubBalances s.balances a tid amt ts := by
  simp only [updateUserBalance, uubBalances, gocu_balances]
  split <;> simp [gocu_balances]

theorem uub_tokens (s a tid amt ts) : (updateUserBalance s a tid amt ts).tokens = s.tokens := by
  simp only [updateUserBalance, gocu_tokens]
  split <;> simp [gocu_tokens]

theorem uub_allEvents (s a tid amt ts) :
    (updateUserBalance s a tid amt ts).allEvents = s.allEvents := by
  simp only [updateUserBalance, gocu_allEvents]
  split <;> simp [gocu_allEvents]

theorem uub_tokenCreations (s a tid amt ts) :
    (updateUserBalance s a tid amt ts).tokenCreations = s.tokenCreations := by
  simp only [updateUserBalance, gocu_tokenCreations]
  split <;> simp [gocu_tokenCreations]

theorem uub_tokenMints (s a tid amt ts) :
    (updateUserBalance s a tid amt ts).tokenMints = s.tokenMints := by
  simp only [updateUserBalance, gocu_tokenMints]
  split <;> simp [gocu_tokenMints]

theorem uub_inventoryItems (s a tid amt ts) :
    (updateUserBalance s a tid amt ts).inventoryItems = s.inventoryItems := by
  simp only [updateUserBalance, gocu_inventoryItems]
  split <;> simp [gocu_inventoryItems]

theorem uub_dailyStats (s a tid amt ts) :
    (updateUserBalance s a tid amt ts).dailyStats = s.dailyStats := by
  simp only [updateUserBalance, gocu_dailyStats]
  split <;> simp [gocu_dailyStats]

theorem uub_roleChanges (s a tid amt ts) :
    (updateUserBalance s a tid amt ts).roleChanges = s.roleChanges := by
  simp only [updateUserBalance, gocu_roleChanges]
  split <;> simp [gocu_roleChanges]

theorem uub_globalStats_of_present (s a tid amt ts) (h : (alookup a s.users).isSome) :
    (updateUserBalance s a tid amt ts).globalStats = s.globalStats := by
  simp only [updateUserBalance]
  split <;> exact gocu_globalStats_of_present _ _ (by simpa using h)

theorem uub_user_present (s a tid amt ts b) (h : (alookup b s.users).isSome) :
    (alookup b (updateUserBalance s a tid amt ts).users).isSome := by
  simp only [updateUserBalance]
  by_cases hab : a = b
  · subst hab
    split <;> simp [alookup_ainsert_self]
  · split <;>
      · simp only [alookup_ainsert_ne _ _ hab]
        exact gocu_user_present _ _ _ (by simpa using h)

theorem fmeta_tokens (env s tid uri) :
    (fetchAndParseMetadata env s tid uri).1.tokens = s.tokens := by
  unfold fetchAndParseMetadata
  cases uri with
  | none => rfl
  | some u => cases h : fetchJson env u <;> simp [h]

theorem fmeta_balances (env s tid uri) :
    (fetchAndParseMetadata env s tid uri).1.balances = s.balances := by
  unfold fetchAndParseMetadata
  cases uri with
  | none => rfl
  | some u => cases h : fetchJson env u <;> simp [h]

theorem fmeta_users (env s tid uri) :
    (fetchAndParseMetadata env s tid uri).1.users = s.users := by
  unfold fetchAndParseMetadata
  cases uri with
  | none => rfl
  | some u => cases h : fetchJson env u <;> simp [h]

theorem fmeta_globalStats (env s tid uri) :
    (fetchAndParseMetadata env s tid uri).1.globalStats = s.globalStats := by
  unfold fetchAndParseMetadata
  cases uri with
  | none => rfl
  | some u => cases h : fetchJson env u <;> simp [h]

theorem fmeta_dailyStats (env s tid uri) :
    (fetchAndParseMetadata env s tid uri).1.dailyStats = s.dailyStats := by
  unfold fetchAndParseMetadata
  cases uri with
  | none => rfl
  | some u => cases h : fetchJson env u <;> simp [h]

theorem fmeta_allEvents (env s tid uri) :
    (fetchAndParseMetadata env s tid uri).1.allEvents = s.allEvents := by
  unfold fetchAndParseMetadata
  cases uri with
  | none => rfl
  | some u => cases h : fetchJson env u <;> simp [h]

theorem fmeta_tokenCreations (env s tid uri) :
    (fetchAndParseMetadata env s tid uri).1.tokenCreations = s.tokenCreations := by
  unfold fetchAndParseMetadata
  cases uri with
  | none => rfl
  | some u => cases h : fetchJson env u <;> simp [h]

theorem fmeta_tokenMints (env s tid uri) :
    (fetchAndParseMetadata env s tid uri).1.tokenMints = s.tokenMints := by
  unfold fetchAndParseMetadata
  cases uri with
  | none => rfl
  | some u => cases h : fetchJson env u <;> simp [h]

theorem fmeta_inventoryItems (env s tid uri) :
    (fetchAndParseMetadata env s tid uri).1.inventoryItems = s.inventoryItems := by
  unfold fetchAndParseMetadata
  cases uri with
  | none => rfl
  | some u => cases h : fetchJson env u <;> simp [h]

theorem fmeta_roleChanges (env s tid uri) :
    (fetchAndParseMetadata env s tid uri).1.roleChanges = s.roleChanges := by
  unfold fetchAndParseMetadata
  cases uri with
  | none => rfl
  | some u => cases h : fetchJson env u <;> simp [h]

/-! ## Effect of one balance update on the balance collection -/

theorem uubBalances_keysOnce {bs} (a : String) (tid : Nat) (amt : Int) (ts : Nat)
    (h : KeysOnce bs) : KeysOnce (uubBalances bs a tid amt ts) := by
  simp only [uubBalances]
  split
  · exact keysOnce_aerase _ h
  · exact keysOnce_ainsert _ _ h

theorem uubBalances_noZero {bs} (a : String) (tid : Nat) (amt : Int) (ts : Nat)
    (h : NoZero bs) : NoZero (uubBalances bs a tid amt ts) := by
  simp only [uubBalances]
  split
  · intro p hp
    exact h p (List.mem_of_mem_filter hp)
  · next hnz =>
      intro p hp
      rcases List.mem_cons.mp hp with hp | hp
      · rw [hp]
        exact hnz
      · exact h p (List.mem_of_mem_filter hp)

theorem uubBalances_sum {bs} (a : String) (tid : Nat) (amt : Int) (ts : Nat) (t' : String)
    (h : KeysOnce bs) :
    sumBalances (uubBalances bs a tid amt ts) t' =
      sumBalances bs t' + (if toString tid = t' then amt else 0) := by
  simp only [uubBalances]
  have hkey : ((a, toString tid) : String × String).2 = toString tid := rfl
  cases hb : alookup (a, toString tid) bs with
  | none =>
      have hob : oldBal bs (a, toString tid) = 0 := by simp [oldBal, hb]
      simp only [hb]
      split
      · next hz =>
          rw [sumBalances_aerase h, hob, hkey]
          try dsimp only at hz ⊢
          split_ifs <;> omega
      · next hz =>
          rw [sumBalances_ainsert h, hob, hkey]
          try dsimp only at hz ⊢
          split_ifs <;> omega
  | some b =>
      have hob : oldBal bs (a, toString tid) = b.balance := by simp [oldBal, hb]
      simp only [hb]
      split
      · next hz =>
          rw [sumBalances_aerase h, hob, hkey]
          try dsimp only at hz ⊢
          split_ifs <;> omega
      · next hz =>
          rw [sumBalances_ainsert h, hob, hkey]
          try dsimp only at hz ⊢
          split_ifs <;> omega

/-! ## Handler-level characterizations -/

theorem mint_tokens (s m ta tid amt op) :
    (handleTokenMint s m ta tid amt op).tokens =
      (match alookup (toString tid) s.tokens with
       | some t => ainsert (toString tid) { t with currentSupply := t.currentSupply + amt } s.tokens
       | none => s.tokens) := by
  simp only [handleTokenMint, gocu_tokens]
  cases h : alookup (toString tid) s.tokens <;>
    · simp only [h]
      split <;> simp [uds_tokens, ugs_tokens, gocu_tokens, uub_tokens]

theorem mint_balances (s m ta tid amt op) :
    (handleTokenMint s m ta tid amt op).balances =
      uubBalances s.balances ta tid amt m.timestamp := by
  simp only [handleTokenMint, gocu_tokens, gocu_balances]
  cases h : alookup (toString tid) s.tokens <;>
    · simp only [h]
      split <;> simp [uds_balances, ugs_balances, gocu_balances, uub_balances, gocu_tokens]

theorem mint_allEvents_absorb (s m ta tid amt op v) :
    ainsert (eventIdOf m) v (handleTokenMint s m ta tid amt op).allEvents =
      ainsert (eventIdOf m) v s.allEvents := by
  simp only [handleTokenMint, gocu_tokens]
  cases h : alookup (toString tid) s.tokens <;>
    · simp only [h]
      split <;>
        simp [uds_allEvents, ugs_allEvents, gocu_allEvents, uub_allEvents, ainsert_ainsert_same]

theorem mint_tokenCreations (s m ta tid amt op) :
    (handleTokenMint s m ta tid amt op).tokenCreations = s.tokenCreations := by
  simp only [handleTokenMint, gocu_tokens]
  cases h : alookup (toString tid) s.tokens <;>
    · simp only [h]
      split <;>
        simp [uds_tokenCreations, ugs_tokenCreations, gocu_tokenCreations, uub_tokenCreations]

theorem mint_roleChanges (s m ta tid amt op) :
    (handleTokenMint s m ta tid amt op).roleChanges = s.roleChanges := by
  simp only [handleTokenMint, gocu_tokens]
  cases h : alookup (toString tid) s.tokens <;>
    · simp only [h]
      split <;> simp [updateDailyStats, updateGlobalStats, gocu_roleChanges, uub_roleChanges]

theorem mint_token_present (s m ta tid amt op k)
    (h : (alookup k s.tokens).isSome) :
    (alookup k (handleTokenMint s m ta tid amt op).tokens).isSome := by
  rw [mint_tokens]
  cases hb : alookup (toString tid) s.tokens with
  | none => simpa using h
  | some t =>
      by_cases hk : (toString tid) = k
      · subst hk
        simp [alookup_ainsert_self]
      · simpa [alookup_ainsert_ne _ _ hk] using h

theorem single_mint_eq (s m op ta id v) :
    handleTransferSingle s m op ZERO_ADDRESS ta id v = handleTokenMint s m ta id v op := by
  simp [handleTransferSingle]

theorem single_tokens_plain (s m op f ta id v) (hf : ¬f = ZERO_ADDRESS) :
    (handleTransferSingle s m op f ta id v).tokens = s.tokens := by
  simp [handleTransferSingle, hf, uub_tokens]

theorem single_balances_plain (s m op f ta id v) (hf : ¬f = ZERO_ADDRESS) :
    (handleTransferSingle s m op f ta id v).balances =
      uubBalances (uubBalances s.balances f id (-v) m.timestamp) ta id v m.timestamp := by
  simp [handleTransferSingle, hf, uub_balances]

theorem granted_tokens (s m r a sd) : (handleRoleGranted s m r a sd).tokens = s.tokens := by
  simp [handleRoleGranted, gocu_tokens]

theorem granted_balances (s m r a sd) : (handleRoleGranted s m r a sd).balances = s.balances := by
  simp [handleRoleGranted, gocu_balances]

theorem revoked_tokens (s m r a sd) : (handleRoleRevoked s m r a sd).tokens = s.tokens := by
  simp [handleRoleRevoked, gocu_tokens]

theorem revoked_balances (s m r a sd) : (handleRoleRevoked s m r a sd).balances = s.balances := by
  simp [handleRoleRevoked, gocu_balances]

theorem created_balances (env s m tid tt c sc uri) :
    (handleTokenCreated env s m tid tt c sc uri).balances = s.balances := by
  simp only [handleTokenCreated]
  cases h : alookup (toString tid) s.tokens <;>
    simp [h, fmeta_balances, gocu_balances, ugs_balances, uds_balances]

theorem created_tokens_of_present (env s m tid tt c sc uri)
    (h : (alookup (toString tid) s.tokens).isSome) :
    (handleTokenCreated env s m tid tt c sc uri).tokens = s.tokens := by
  simp only [handleTokenCreated]
  cases hb : alookup (toString tid) s.tokens with
  | none => rw [hb] at h; simp at h
  | some t => simp [hb, gocu_tokens, ugs_tokens, uds_tokens]

theorem created_supply_of_absent (env s m tid tt c sc uri)
    (h : alookup (toString tid) s.tokens = none) :
    (alookup (toString tid) (handleTokenCreated env s m tid tt c sc uri).tokens).map
      Token.currentSupply = some 0 := by
  simp only [handleTokenCreated, h]
  simp [fmeta_tokens, gocu_tokens, ugs_tokens, uds_tokens, alookup_ainsert_self]

theorem created_tokens_lookup_ne (env s m tid tt c sc uri k) (hk : ¬toString tid = k) :
    alookup k (handleTokenCreated env s m tid tt c sc uri).tokens = alookup k s.tokens := by
  simp only [handleTokenCreated]
  cases hb : alookup (toString tid) s.tokens with
  | none =>
      simp [hb, fmeta_tokens, gocu_tokens, ugs_tokens, uds_tokens, alookup_ainsert_ne _ _ hk]
  | some t => simp [hb, gocu_tokens, ugs_tokens, uds_tokens]

/-! ## Preservation of the conservation invariant -/

theorem consInv_of_eq {s s' : State} (ht : s'.tokens = s.tokens)
    (hb : s'.balances = s.balances) (h : ConsInv s) : ConsInv s' := by
  obtain ⟨hk, hsum⟩ := h
  refine ⟨hb ▸ hk, fun tid => ?_⟩
  rw [hb, hsum]
  unfold supplyOr0
  rw [ht]

theorem consInv_mint (s m ta tid amt op)
    (hsafe : (alookup (toString tid) s.tokens).isSome) (h : ConsInv s) :
    ConsInv (handleTokenMint s m ta tid amt op) := by
  obtain ⟨hk, hsum⟩ := h
  cases hb : alookup (toString tid) s.tokens with
  | none => rw [hb] at hsafe; simp at hsafe
  | some t =>
      constructor
      · rw [mint_balances]
        exact uubBalances_keysOnce _ _ _ _ hk
      · intro t'
        rw [mint_balances, uubBalances_sum _ _ _ _ _ hk, hsum]
        unfold supplyOr0
        rw [mint_tokens, hb]
        by_cases ht' : toString tid = t'
        · subst ht'
          rw [alookup_ainsert_self]
          simp [hb]
        · rw [alookup_ainsert_ne _ _ ht']
          simp [ht']

theorem consInv_plain_pair (s : State) (f ta : String) (id : Nat) (v : Int) (ts : Nat)
    (h : ConsInv s) :
    ConsInv (updateUserBalance (updateUserBalance s f id (-v) ts) ta id v ts) := by
  obtain ⟨hk, hsum⟩ := h
  have hk1 : KeysOnce (updateUserBalance s f id (-v) ts).balances := by
    rw [uub_balances]
    exact uubBalances_keysOnce _ _ _ _ hk
  constructor
  · rw [uub_balances]
    exact uubBalances_keysOnce _ _ _ _ hk1
  · intro t'
    rw [uub_balances, uubBalances_sum _ _ _ _ _ hk1, uub_balances,
      uubBalances_sum _ _ _ _ _ hk, hsum]
    unfold supplyOr0
    rw [uub_tokens, uub_tokens]
    cases alookup t' s.tokens <;> split_ifs <;> omega

theorem consInv_batchStep (m : EvMeta) (op f ta : String) (s : State) (p : Nat × Int)
    (hsafe : f = ZERO_ADDRESS → (alookup (toString p.1) s.tokens).isSome)
    (h : ConsInv s) : ConsInv (batchStep m op f ta s p) := by
  unfold batchStep
  split
  · next hz => exact consInv_mint _ _ _ _ _ _ (hsafe hz) h
  · exact consInv_plain_pair _ _ _ _ _ _ h

theorem batchStep_token_present (m op f ta s p k) (h : (alookup k s.tokens).isSome) :
    (alookup k (batchStep m op f ta s p).tokens).isSome := by
  unfold batchStep
  split
  · exact mint_token_present _ _ _ _ _ _ _ h
  · simpa [uub_tokens] using h

theorem consInv_batch_fold (m : EvMeta) (op f ta : String) :
    ∀ (ps : List (Nat × Int)) (s : State),
      (f = ZERO_ADDRESS → ∀ p ∈ ps, (alookup (toString p.1) s.tokens).isSome) →
      ConsInv s → ConsInv (ps.foldl (batchStep m op f ta) s) := by
  intro ps
  induction ps with
  | nil => intro s _ h; simpa using h
  | cons p rest ih =>
      intro s hsafe h
      rw [List.foldl_cons]
      refine ih _ ?_ (consInv_batchStep _ _ _ _ _ _ (fun hz => hsafe hz p (by simp)) h)
      intro hz q hq
      exact batchStep_token_present _ _ _ _ _ _ _ (hsafe hz q (List.mem_cons_of_mem _ hq))

theorem consInv_created (env s m tid tt c sc uri) (h : ConsInv s) :
    ConsInv (handleTokenCreated env s m tid tt c sc uri) := by
  obtain ⟨hk, hsum⟩ := h
  constructor
  · rw [created_balances]
    exact hk
  · intro t'
    rw [created_balances, hsum]
    by_cases ht' : toString tid = t'
    · subst ht'
      cases hb : alookup (toString tid) s.tokens with
      | none =>
          have hz := created_supply_of_absent env s m tid tt c sc uri hb
          unfold supplyOr0
          rw [hb]
          cases hres : alookup (toString tid) (handleTokenCreated env s m tid tt c sc uri).tokens with
          | none => simp
          | some tok =>
              have htok : tok.currentSupply = 0 := by
                rw [hres] at hz
                simpa using hz
              simp [htok]
      | some t =>
          have heq := created_tokens_of_present env s m tid tt c sc uri (by simp [hb])
          unfold supplyOr0
          rw [heq]
    · unfold supplyOr0
      rw [created_tokens_lookup_ne env s m tid tt c sc uri t' ht']

theorem consInv_processEvent (env : Env) (s : State) (e : Ev)
    (hsafe : mintSafe s e = true) (h : ConsInv s) : ConsInv (processEvent env s e) := by
  cases e with
  | created m tid tt c sc uri => exact consInv_created env s m tid tt c sc uri h
  | single m op f ta id v =>
      by_cases hf : f = ZERO_ADDRESS
      · subst hf
        rw [show processEvent env s (Ev.single m op ZERO_ADDRESS ta id v)
              = handleTransferSingle s m op ZERO_ADDRESS ta id v from rfl, single_mint_eq]
        refine consInv_mint _ _ _ _ _ _ ?_ h
        simpa [mintSafe] using hsafe
      · have h2 := consInv_plain_pair s f ta id v m.timestamp h
        refine consInv_of_eq ?_ ?_ h2
        · rw [show (processEvent env s (Ev.single m op f ta id v)).tokens
                = (handleTransferSingle s m op f ta id v).tokens from rfl,
            single_tokens_plain s m op f ta id v hf, uub_tokens, uub_tokens]
        · rw [show (processEvent env s (Ev.single m op f ta id v)).balances
                = (handleTransferSingle s m op f ta id v).balances from rfl,
            single_balances_plain s m op f ta id v hf, uub_balances, uub_balances]
  | batch m op f ta ids values =>
      simp only [processEvent, handleTransferBatch]
      refine consInv_of_eq rfl rfl ?_
      refine consInv_batch_fold m op f ta _ s ?_ h
      intro hz p hp
      subst hz
      simp only [mintSafe, if_true, eq_self_iff_true, List.all_eq_true] at hsafe
      exact hsafe p.1 (List.of_mem_zip hp).1
  | granted m r a sd => exact consInv_of_eq (granted_tokens s m r a sd) (granted_balances s m r a sd) h
  | revoked m r a sd => exact consInv_of_eq (revoked_tokens s m r a sd) (revoked_balances s m r a sd) h

theorem consInv_initial : ConsInv initialState :=
  ⟨List.Pairwise.nil, fun tid => by simp [sumBalances, supplyOr0, initialState, alookup]⟩

theorem consInv_applyEvents (env : Env) :
    ∀ (evs : List Ev) (s : State), goodTrace env s evs = true → ConsInv s →
      ConsInv (applyEvents env s evs) := by
  intro evs
  induction evs with
  | nil => intro s _ h; simpa [applyEvents] using h
  | cons e rest ih =>
      intro s hg h
      simp only [goodTrace, Bool.and_eq_true] at hg
      simp only [applyEvents, List.foldl_cons]
      have := ih (processEvent env s e) hg.2 (consInv_processEvent env s e hg.1 h)
      simpa [applyEvents] using this

theorem goodTrace_take (env : Env) :
    ∀ (evs : List Ev) (s : State) (n : Nat), goodTrace env s evs = true →
      goodTrace env s (evs.take n) = true := by
  intro evs
  induction evs with
  | nil => intro s n h; simpa [List.take_nil] using h
  | cons e rest ih =>
      intro s n h
      cases n with
      | zero => simp [goodTrace]
      | succ n =>
          simp only [List.take_succ_cons, goodTrace, Bool.and_eq_true] at h ⊢
          exact ⟨h.1, ih _ n h.2⟩

/-! ## Preservation of the zero-balance invariant -/

theorem noZero_uub (s a id amt ts) (h : NoZero s.balances) :
    NoZero (updateUserBalance s a id amt ts).balances := by
  rw [uub_balances]
  exact uubBalances_noZero _ _ _ _ h

theorem noZero_mint (s m ta tid amt op) (h : NoZero s.balances) :
    NoZero (handleTokenMint s m ta tid amt op).balances := by
  rw [mint_balances]
  exact uubBalances_noZero _ _ _ _ h

theorem noZero_batchStep (m op f ta s p) (h : NoZero s.balances) :
    NoZero (batchStep m op f ta s p).balances := by
  unfold batchStep
  split
  · exact noZero_mint _ _ _ _ _ _ h
  · exact noZero_uub _ _ _ _ _ (noZero_uub _ _ _ _ _ h)

theorem noZero_processEvent (env s e) (h : NoZero s.balances) :
    NoZero (processEvent env s e).balances := by
  cases e with
  | created m tid tt c sc uri =>
      rw [show (processEvent env s (Ev.created m tid tt c sc uri)).balances
            = (handleTokenCreated env s m tid tt c sc uri).balances from rfl, created_balances]
      exact h
  | single m op f ta id v =>
      by_cases hf : f = ZERO_ADDRESS
      · subst hf
        rw [show processEvent env s (Ev.single m op ZERO_ADDRESS ta id v)
              = handleTransferSingle s m op ZERO_ADDRESS ta id v from rfl, single_mint_eq]
        exact noZero_mint _ _ _ _ _ _ h
      · rw [show (processEvent env s (Ev.single m op f ta id v)).balances
              = (handleTransferSingle s m op f ta id v).balances from rfl,
          single_balances_plain s m op f ta id v hf]
        exact uubBalances_noZero _ _ _ _ (uubBalances_noZero _ _ _ _ h)
  | batch m op f ta ids values =>
      simp only [processEvent, handleTransferBatch]
      have : ∀ (ps : List (Nat × Int)) (s : State), NoZero s.balances →
          NoZero ((ps.foldl (batchStep m op f ta) s)).balances := by
        intro ps
        induction ps with
        | nil => intro s h; simpa using h
        | cons p rest ih =>
            intro s h
            rw [List.foldl_cons]
            exact ih _ (noZero_batchStep m op f ta s p h)
      exact this _ s h
  | granted m r a sd =>
      rw [show (processEvent env s (Ev.granted m r a sd)).balances
            = (handleRoleGranted s m r a sd).balances from rfl, granted_balances]
      exact h
  | revoked m r a sd =>
      rw [show (processEvent env s (Ev.revoked m r a sd)).balances
            = (handleRoleRevoked s m r a sd).balances from rfl, revoked_balances]
      exact h

theorem noZero_applyEvents (env : Env) :
    ∀ (evs : List Ev) (s : State), NoZero s.balances →
      NoZero (applyEvents env s evs).balances := by
  intro evs
  induction evs with
  | nil => intro s h; simpa [applyEvents] using h
  | cons e rest ih =>
      intro s h
      simp only [applyEvents, List.foldl_cons]
      have := ih (processEvent env s e) (noZero_processEvent env s e h)
      simpa [applyEvents] using this

/-! ## Event-orderer lemmas -/

theorem rawEvLe_trans (a b c : RawEv) (h1 : rawEvLe a b = true) (h2 : rawEvLe b c = true) :
    rawEvLe a c = true := by
  simp only [rawEvLe, Bool.or_eq_true, Bool.and_eq_true, decide_eq_true_eq,
    beq_iff_eq] at h1 h2 ⊢
  omega

theorem rawEvLe_total (a b : RawEv) : (rawEvLe a b || rawEvLe b a) = true := by
  simp only [rawEvLe, Bool.or_eq_true, Bool.and_eq_true, decide_eq_true_eq, beq_iff_eq]
  omega

/-! ## Backfill chunking lemmas -/

theorem chunkRanges_mem_bounds (f e m : Nat) :
    ∀ c ∈ chunkRanges f e m, f ≤ c.1 ∧ c.1 ≤ c.2 ∧ c.2 - c.1 ≤ m ∧ c.2 ≤ e := by
  intro c hc
  rw [chunkRanges] at hc
  split at hc
  · next hfe =>
      rcases List.mem_cons.mp hc with hc | hc
      · subst hc
        simp only
        omega
      · have := chunkRanges_mem_bounds (min (f + m) e + 1) e m c hc
        omega
  · simp at hc
termination_by e - f
decreasing_by omega

theorem chunkRanges_head_start (f e m : Nat) (c : Nat × Nat)
    (h : (chunkRanges f e m).head? = some c) : c.1 = f := by
  rw [chunkRanges] at h
  split at h
  · simp only [List.head?_cons, Option.some_inj] at h
    rw [← h]
  · simp at h

theorem chunkRanges_chain (f e m : Nat) :
    List.Chain' (fun c d => d.1 = c.2 + 1) (chunkRanges f e m) := by
  rw [chunkRanges]
  split
  · next hfe =>
      refine List.Chain'.cons' (chunkRanges_chain (min (f + m) e + 1) e m) ?_
      intro y hy
      exact chunkRanges_head_start _ _ _ _ hy
  · exact List.chain'_nil
termination_by e - f
decreasing_by omega

theorem chunkRanges_coverCount (f e m b : Nat) (hdvd : ¬(m + 1) ∣ (e - f))
    (hb1 : f ≤ b) (hb2 : b ≤ e) :
    coverCount (chunkRanges f e m) b = 1 := by
  have hfe : f < e := by
    rcases Nat.lt_or_ge f e with h | h
    · exact h
    · exfalso
      apply hdvd
      have h0 : e - f = 0 := by omega
      rw [h0]
      exact dvd_zero _
  rw [chunkRanges, dif_pos hfe]
  by_cases hbt : b ≤ min (f + m) e
  · have hcount0 : coverCount (chunkRanges (min (f + m) e + 1) e m) b = 0 := by
      unfold coverCount
      rw [List.countP_eq_zero]
      intro c hc
      have hcb := chunkRanges_mem_bounds (min (f + m) e + 1) e m c hc
      simp only [Bool.and_eq_true, decide_eq_true_eq, not_and]
      omega
    unfold coverCount at hcount0 ⊢
    rw [List.countP_cons, hcount0]
    simp
    omega
  · have htm : min (f + m) e = f + m := by omega
    have hrec := chunkRanges_coverCount (min (f + m) e + 1) e m b ?_ (by omega) hb2
    · unfold coverCount at hrec ⊢
      rw [List.countP_cons, hrec]
      simp
      omega
    · intro hd
      apply hdvd
      have heq : e - f = (e - (min (f + m) e + 1)) + (m + 1) := by omega
      rw [heq]
      exact dvd_add hd dvd_rfl
termination_by e - f
decreasing_by omega

/-! ## Aggregate-counter observations -/

def bumpGlobal (g0 : Option GlobalStats) (timestamp : Nat)
    (incrementTokens incrementMints incrementUsers : Bool) : GlobalStats :=
  let g :=
    match g0 with
    | some g => g
    | none =>
        { totalTokens := 0, totalMints := 0, totalUsers := 0, totalSupply := 0
          totalEvents := 0, lastUpdated := 0 }
  let g := if incrementTokens then { g with totalTokens := g.totalTokens + 1 } else g
  let g := if incrementMints then { g with totalMints := g.totalMints + 1 } else g
  let g := if incrementUsers then { g with totalUsers := g.totalUsers + 1 } else g
  { g with totalEvents := g.totalEvents + 1, lastUpdated := timestamp }

theorem ugs_globalStats_eq (s ts a b c) :
    (updateGlobalStats s ts a b c).globalStats = some (bumpGlobal s.globalStats ts a b c) := rfl

/-- `getOrCreateUser`'s returned user as a pure function of the user store. -/
def gocuUser (us : List (String × User)) (a : String) : User :=
  match alookup a us with
  | some u => u
  | none =>
      { address := a, totalTokensCreated := 0, totalTokensMinted := 0
        firstInteraction := 0, lastInteraction := 0, totalInventoryValue := 0 }

theorem gocu_fst (s a) : (getOrCreateUser s a).1 = gocuUser s.users a := by
  unfold getOrCreateUser gocuUser
  cases h : alookup a s.users <;> simp [touchFirstInteraction_id]

theorem gocu_users_eq (s a) :
    (getOrCreateUser s a).2.users = ainsert a (gocuUser s.users a) s.users := by
  unfold getOrCreateUser gocuUser
  cases h : alookup a s.users <;> simp [touchFirstInteraction_id, updateGlobalStats]

theorem gocu_globalStats_eq (s a) :
    (getOrCreateUser s a).2.globalStats =
      (match alookup a s.users with
       | some _ => s.globalStats
       | none => some (bumpGlobal s.globalStats 0 false false true)) := by
  unfold getOrCreateUser
  cases h : alookup a s.users <;> simp [h, ugs_globalStats_eq]

theorem uub_users_eq (s a tid amt ts) :
    (updateUserBalance s a tid amt ts).users =
      ainsert a
        { gocuUser s.users a with
            totalInventoryValue := (gocuUser s.users a).totalInventoryValue + amt,
            lastInteraction := ts } s.users := by
  simp only [updateUserBalance]
  split <;>
    · simp only [gocu_users_eq, gocu_fst]
      rw [ainsert_ainsert_same]

theorem uub_globalStats_eq (s a tid amt ts) :
    (updateUserBalance s a tid amt ts).globalStats =
      (match alookup a s.users with
       | some _ => s.globalStats
       | none => some (bumpGlobal s.globalStats 0 false false true)) := by
  simp only [updateUserBalance]
  split <;> simp [gocu_globalStats_eq]

theorem mint_globalStats_of_present (s m ta tid amt op u)
    (hu : alookup ta s.users = some u) :
    (handleTokenMint s m ta tid amt op).globalStats
      = (updateGlobalStats s m.timestamp false true false).globalStats := by
  simp only [handleTokenMint, gocu_tokens]
  cases hb : alookup (toString tid) s.tokens <;>
    · simp only [hb]
      split <;>
        simp [uds_globalStats, ugs_globalStats_eq, gocu_globalStats_eq, uub_globalStats_eq,
          gocu_users_eq, uub_users_eq, alookup_ainsert_self, hu]

def gTokens (g0 : Option GlobalStats) : Int :=
  match g0 with
  | some g => g.totalTokens
  | none => 0

def gMints (g0 : Option GlobalStats) : Int :=
  match g0 with
  | some g => g.totalMints
  | none => 0

def gUsers (g0 : Option GlobalStats) : Int :=
  match g0 with
  | some g => g.totalUsers
  | none => 0

def gEvents (g0 : Option GlobalStats) : Int :=
  match g0 with
  | some g => g.totalEvents
  | none => 0

def totalTokensOf (s : State) : Int := gTokens s.globalStats

def totalMintsOf (s : State) : Int := gMints s.globalStats

def totalUsersOf (s : State) : Int := gUsers s.globalStats

def totalEventsOf (s : State) : Int := gEvents s.globalStats

theorem bumpGlobal_tokens (g0 ts a b c) :
    (bumpGlobal g0 ts a b c).totalTokens = gTokens g0 + (if a then 1 else 0) := by
  cases g0 <;> simp [bumpGlobal, gTokens] <;> split_ifs <;> simp

theorem bumpGlobal_mints (g0 ts a b c) :
    (bumpGlobal g0 ts a b c).totalMints = gMints g0 + (if b then 1 else 0) := by
  cases g0 <;> simp [bumpGlobal, gMints] <;> split_ifs <;> simp

theorem bumpGlobal_users (g0 ts a b c) :
    (bumpGlobal g0 ts a b c).totalUsers = gUsers g0 + (if c then 1 else 0) := by
  cases g0 <;> simp [bumpGlobal, gUsers] <;> split_ifs <;> simp

theorem bumpGlobal_events (g0 ts a b c) :
    (bumpGlobal g0 ts a b c).totalEvents = gEvents g0 + 1 := by
  cases g0 <;> simp [bumpGlobal, gEvents] <;> split_ifs <;> simp

theorem ugs_totalEvents (s ts a b c) :
    totalEventsOf (updateGlobalStats s ts a b c) = totalEventsOf s + 1 := by
  unfold totalEventsOf
  rw [ugs_globalStats_eq]
  simp [gEvents, bumpGlobal_events]

/-- Daily-stats row written by `updateDailyStats`, as a pure function. -/
def bumpDaily (d0 : Option DailyStats) (timestamp : Nat) (incrementTokens incrementMints : Bool) :
    DailyStats :=
  let d :=
    match d0 with
    | some d => d
    | none =>
        { date := timestamp / 86400, tokensCreated := 0, tokensMinted := 0
          activeUsers := 0, totalSupplyChange := 0 }
  let d := if incrementTokens then { d with tokensCreated := d.tokensCreated + 1 } else d
  let d := if incrementMints then { d with tokensMinted := d.tokensMinted + 1 } else d
  { d with activeUsers := d.activeUsers + 1 }

theorem uds_dailyStats_eq (s ts a b) :
    (updateDailyStats s ts a b).dailyStats =
      ainsert (toString (ts / 86400))
        (bumpDaily (alookup (toString (ts / 86400)) s.dailyStats) ts a b) s.dailyStats := rfl

def dTokensCreated (d0 : Option DailyStats) : Int :=
  match d0 with
  | some d => d.tokensCreated
  | none => 0

def dailyTokensCreatedOf (s : State) (ts : Nat) : Int :=
  dTokensCreated (alookup (toString (ts / 86400)) s.dailyStats)

theorem bumpDaily_tokensCreated (d0 ts a b) :
    (bumpDaily d0 ts a b).tokensCreated = dTokensCreated d0 + (if a then 1 else 0) := by
  cases d0 <;> simp [bumpDaily, dTokensCreated] <;> split_ifs <;> simp

/-! handler stats lemmas -/

theorem created_globalStats_of_present (env s m tid tt c sc uri u)
    (hu : alookup m.txFrom s.users = some u) :
    (handleTokenCreated env s m tid tt c sc uri).globalStats
      = (updateGlobalStats s m.timestamp true false false).globalStats := by
  simp only [handleTokenCreated]
  cases hb : alookup (toString tid) s.tokens <;>
    · simp [hb, uds_globalStats, ugs_globalStats_eq, gocu_globalStats_eq, gocu_users_eq,
        alookup_ainsert_self, hu, fmeta_users, fmeta_globalStats]

theorem single_plain_globalStats (s m op f ta id v uf ut)
    (hf : ¬f = ZERO_ADDRESS) (huf : alookup f s.users = some uf)
    (hut : alookup ta s.users = some ut) :
    (handleTransferSingle s m op f ta id v).globalStats = s.globalStats := by
  by_cases hft : f = ta
  · subst hft
    simp [handleTransferSingle, hf, uub_globalStats_eq, uub_users_eq,
      alookup_ainsert_self, huf]
  · simp [handleTransferSingle, hf, uub_globalStats_eq, uub_users_eq,
      alookup_ainsert_ne _ _ hft, huf, hut]

theorem granted_globalStats_of_present (s m r a sd u)
    (hu : alookup a s.users = some u) :
    (handleRoleGranted s m r a sd).globalStats = s.globalStats := by
  simp [handleRoleGranted, gocu_globalStats_eq, gocu_users_eq, alookup_ainsert_self, hu]

theorem revoked_globalStats_of_present (s m r a sd u)
    (hu : alookup a s.users = some u) :
    (handleRoleRevoked s m r a sd).globalStats = s.globalStats := by
  simp [handleRoleRevoked, gocu_globalStats_eq, gocu_users_eq, alookup_ainsert_self, hu]

theorem created_totalTokens (env s m tid tt c sc uri) :
    totalTokensOf (handleTokenCreated env s m tid tt c sc uri) = totalTokensOf s + 1 := by
  simp only [handleTokenCreated]
  cases hb : alookup (toString tid) s.tokens <;>
    · unfold totalTokensOf
      simp only [hb, uds_globalStats, ugs_globalStats_eq]
      cases hu : alookup m.txFrom s.users <;>
        simp [gTokens, bumpGlobal_tokens, gocu_globalStats_eq, gocu_users_eq,
          alookup_ainsert_self, hu, fmeta_users, fmeta_globalStats]

theorem created_daily (env s m tid tt c sc uri) :
    dailyTokensCreatedOf (handleTokenCreated env s m tid tt c sc uri) m.timestamp
      = dailyTokensCreatedOf s m.timestamp + 1 := by
  simp only [handleTokenCreated]
  cases hb : alookup (toString tid) s.tokens <;>
    · unfold dailyTokensCreatedOf
      simp [hb, uds_dailyStats_eq, alookup_ainsert_self, bumpDaily_tokensCreated,
        ugs_dailyStats, gocu_dailyStats, fmeta_dailyStats, dTokensCreated]

theorem created_user_counter (env s m tid tt c sc uri u)
    (hu : alookup m.txFrom s.users = some u) :
    alookup m.txFrom (handleTokenCreated env s m tid tt c sc uri).users
      = some { u with totalTokensCreated := u.totalTokensCreated + 1,
                      lastInteraction := m.timestamp } := by
  simp only [handleTokenCreated]
  cases hb : alookup (toString tid) s.tokens <;>
    · simp [hb, uds_users, ugs_users, gocu_fst, gocu_users_eq, alookup_ainsert_self,
        gocuUser, hu, fmeta_users]

theorem created_creations (env s m tid tt c sc uri) :
    ∃ cr, (handleTokenCreated env s m tid tt c sc uri).tokenCreations
        = ainsert (eventIdOf m) cr s.tokenCreations := by
  simp only [handleTokenCreated]
  cases hb : alookup (toString tid) s.tokens <;>
    · simp only [hb, uds_tokenCreations, ugs_tokenCreations, gocu_tokenCreations,
        fmeta_tokenCreations]
      exact ⟨_, rfl⟩

theorem created_allEvents (env s m tid tt c sc uri) :
    ∃ ae, (handleTokenCreated env s m tid tt c sc uri).allEvents
        = ainsert (eventIdOf m) ae s.allEvents := by
  simp only [handleTokenCreated]
  cases hb : alookup (toString tid) s.tokens <;>
    · simp only [hb, uds_allEvents, ugs_allEvents, gocu_allEvents, fmeta_allEvents]
      exact ⟨_, rfl⟩

theorem mint_totalCounters (s m ta tid amt op u) (hu : alookup ta s.users = some u) :
    totalEventsOf (handleTokenMint s m ta tid amt op) = totalEventsOf s + 1 ∧
    totalMintsOf (handleTokenMint s m ta tid amt op) = totalMintsOf s + 1 ∧
    totalTokensOf (handleTokenMint s m ta tid amt op) = totalTokensOf s ∧
    totalUsersOf (handleTokenMint s m ta tid amt op) = totalUsersOf s := by
  have hg := mint_globalStats_of_present s m ta tid amt op u hu
  unfold totalEventsOf totalMintsOf totalTokensOf totalUsersOf
  rw [hg, ugs_globalStats_eq]
  simp [gEvents, gMints, gTokens, gUsers, bumpGlobal_events, bumpGlobal_mints,
    bumpGlobal_tokens, bumpGlobal_users]

theorem created_totalCounters (env s m tid tt c sc uri u)
    (hu : alookup m.txFrom s.users = some u) :
    totalEventsOf (handleTokenCreated env s m tid tt c sc uri) = totalEventsOf s + 1 ∧
    totalTokensOf (handleTokenCreated env s m tid tt c sc uri) = totalTokensOf s + 1 ∧
    totalMintsOf (handleTokenCreated env s m tid tt c sc uri) = totalMintsOf s ∧
    totalUsersOf (handleTokenCreated env s m tid tt c sc uri) = totalUsersOf s := by
  have hg := created_globalStats_of_present env s m tid tt c sc uri u hu
  unfold totalEventsOf totalMintsOf totalTokensOf totalUsersOf
  rw [hg, ugs_globalStats_eq]
  simp [gEvents, gMints, gTokens, gUsers, bumpGlobal_events, bumpGlobal_mints,
    bumpGlobal_tokens, bumpGlobal_users]


/-- The whole-batch journal entry wins: every per-element mint journal write in
a batch shares the batch entry's id `txHash-logIndex` and is overwritten, so a
batch transfer leaves exactly the batch entry in the journal. -/
theorem batch_allEvents (s m op f ta ids values) :
    (handleTransferBatch s m op f ta ids values).allEvents
      = ainsert (eventIdOf m) (batchAllEvent m op f ta ids values) s.allEvents := by
  simp only [handleTransferBatch]
  have habs : ∀ (ps : List (Nat × Int)) (s : State) (v : AllEvent),
      ainsert (eventIdOf m) v ((ps.foldl (batchStep m op f ta) s)).allEvents
        = ainsert (eventIdOf m) v s.allEvents := by
    intro ps
    induction ps with
    | nil => intro s v; rfl
    | cons p rest ih =>
        intro s v
        rw [List.foldl_cons, ih]
        unfold batchStep
        split
        · exact mint_allEvents_absorb _ _ _ _ _ _ _
        · simp [uub_allEvents]
  exact habs _ _ _

/-! ## Concrete inputs used by counterexamples and witnesses -/

/-- Oracle environment in which every retrieval fails. -/
def sampleEnv : Env :=
  { httpGet := fun _ => none, ipfsCat := fun _ => none, jsonFromBytes := fun _ => none }

/-- Event metadata for the sample traces, distinguished by log index. -/
def sampleMeta (li : Nat) : EvMeta :=
  { blockNumber := 100, blockHash := "0xb", txHash := "0xt" ++ toString li, txIndex := 0,
    logIndex := li, timestamp := 1000000, gasPrice := 1, txFrom := "0xcafe",
    txTo := some "0xc0de", txValue := 0 }

def userA : String := "0xaaaa"

def userB : String := "0xbbbb"

/-- A mint of token 7 delivered before the token's creation event. -/
def c1BadTrace : List Ev :=
  [Ev.single (sampleMeta 1) "0x05" ZERO_ADDRESS userA 7 5,
   Ev.created (sampleMeta 2) 7 0 "cat" "sub" none]

/-- Creation of token 42 followed by a mint of 5 to `userA`. -/
def c1GoodTrace : List Ev :=
  [Ev.created (sampleMeta 1) 42 0 "cat" "sub" none,
   Ev.single (sampleMeta 2) "0x05" ZERO_ADDRESS userA 42 5]

/-- State holding the Token entity for id 42. -/
def c3State : State :=
  applyEvents sampleEnv initialState [Ev.created (sampleMeta 1) 42 0 "cat" "sub" none]

/-- The Token entity recorded in `c3State`. -/
def c3Token : Token :=
  { tokenId := 42, tokenType := 0, category := "cat", subCategory := "sub",
    soulbound := false, maxSupply := 0, currentSupply := 0, creator := "0xcafe",
    createdAt := 1000000, createdAtBlock := 100, createdTxHash := "0xt1",
    tokenURI := none, metadataId := some "42", name := "Token 42",
    description := "Description for token 42", image := "", rewardId := "",
    forgeId := none }

/-- State with users `userA` and `userB` (via two role grants). -/
def c4State : State :=
  applyEvents sampleEnv initialState
    [Ev.granted (sampleMeta 1) "0x11" userA userB,
     Ev.granted (sampleMeta 2) "0x11" userB userA]

/-- The record of `userA` in `c4State`. -/
def c4UserA : User :=
  { address := userA, totalTokensCreated := 0, totalTokensMinted := 0,
    firstInteraction := 0, lastInteraction := 1000000, totalInventoryValue := 0 }

/-- State after a plain transfer of token 99, for which no Token was created. -/
def c5State : State :=
  applyEvents sampleEnv initialState [Ev.single (sampleMeta 1) "0x05" userA userB 99 3]

/-- State after a batch mint of token ids 1 and 2. -/
def c9State : State :=
  applyEvents sampleEnv initialState
    [Ev.batch (sampleMeta 1) "0x05" ZERO_ADDRESS userA [1, 2] [5, 5]]

/-- The creator's User record in `c3State`. -/
def c10User : User :=
  { address := "0xcafe", totalTokensCreated := 1, totalTokensMinted := 0,
    firstInteraction := 0, lastInteraction := 1000000, totalInventoryValue := 0 }

/-! ## Claims -/

/-- C1 (amended): for every token id, after any prefix of an ordered event
sequence applied by the handlers from the empty store, the sum of
`UserTokenBalance.balance` over that token's records equals the Token's
`currentSupply` (0 when no Token entity exists) — provided every mint in the
trace targets a token whose Token entity already exists (`goodTrace`).  The
restriction is forced: `handleTokenMint` updates the destination balance
unconditionally but bumps `currentSupply` only when `Token.load` succeeds, so
a mint delivered before its token's creation breaks conservation
(counterexample `balance_conservation_cex`). -/
theorem balance_conservation (env : Env) (evs : List Ev)
    (h : goodTrace env initialState evs = true) (n : Nat) (tid : String) :
    sumBalances (applyEvents env initialState (evs.take n)).balances tid
      = supplyOr0 (applyEvents env initialState (evs.take n)) tid :=
  (consInv_applyEvents env (evs.take n) initialState
      (goodTrace_take env evs initialState n h) consInv_initial).2 tid

/-- C1 counterexample: a mint of 5 of token 7 followed by token 7's creation
leaves `currentSupply = 0` but a balance sum of 5, refuting unconditional
balance conservation. -/
theorem balance_conservation_cex :
    supplyOr0 (applyEvents sampleEnv initialState c1BadTrace) "7" = 0 ∧
    sumBalances (applyEvents sampleEnv initialState c1BadTrace).balances "7" = 5 := by
  decide

/-- C1 witness: the create-then-mint trace is a good trace and conservation
holds after its full prefix. -/
theorem balance_conservation_witness :
    goodTrace sampleEnv initialState c1GoodTrace = true ∧
    sumBalances (applyEvents sampleEnv initialState (c1GoodTrace.take 2)).balances "42"
      = supplyOr0 (applyEvents sampleEnv initialState (c1GoodTrace.take 2)) "42" :=
  ⟨by decide, balance_conservation sampleEnv c1GoodTrace (by decide) 2 "42"⟩

/-- C2: in every state reachable by applying any event sequence through the
handlers from the empty store, no UserTokenBalance record has balance exactly
zero: `updateUserBalance` deletes the record when `current + delta = 0` and
otherwise upserts the nonzero balance with the event timestamp. -/
theorem zero_balance_invariant (env : Env) (evs : List Ev) :
    NoZero (applyEvents env initialState evs).balances :=
  noZero_applyEvents env evs initialState fun p hp => absurd hp (List.not_mem_nil p)

/-- C3: applying a duplicate TokenCreated event for an existing token id
leaves the Token collection — hence every field of the existing Token —
unchanged: the creation branch (supply/creator/metadata writes) only runs
when `Token.load` fails. -/
theorem idempotent_creation (env : Env) (s : State) (m : EvMeta) (tid tt : Nat)
    (c sc : String) (uri : Option String)
    (h : (alookup (toString tid) s.tokens).isSome = true) :
    (handleTokenCreated env s m tid tt c sc uri).tokens = s.tokens :=
  created_tokens_of_present env s m tid tt c sc uri h

/-- C3 witness: a duplicate creation of token 42 on a store already holding it
leaves the Token collection unchanged. -/
theorem idempotent_creation_witness :
    (alookup (toString (42 : Nat)) c3State.tokens).isSome = true ∧
    (handleTokenCreated sampleEnv c3State (sampleMeta 2) 42 1 "other" "other2" none).tokens
      = c3State.tokens :=
  ⟨by decide,
   idempotent_creation sampleEnv c3State (sampleMeta 2) 42 1 "other" "other2" none (by decide)⟩

/-- C4 (amended): the total-event counter counts `updateGlobalStats`
invocations, not applied events.  Each invocation bumps `totalEvents` exactly
once; a creation event and a mint invoke it once directly (tokens resp. mints
flag), and new-user creation invokes it once more (users flag); plain
transfers and role events touching only existing users never invoke it, so
they leave GlobalStats entirely unchanged. -/
theorem global_event_counter :
    (∀ s ts a b c, totalEventsOf (updateGlobalStats s ts a b c) = totalEventsOf s + 1) ∧
    (∀ env s m op f ta id v uf ut, ¬f = ZERO_ADDRESS → alookup f s.users = some uf →
        alookup ta s.users = some ut →
        (processEvent env s (Ev.single m op f ta id v)).globalStats = s.globalStats) ∧
    (∀ env s m r a sd u, alookup a s.users = some u →
        (processEvent env s (Ev.granted m r a sd)).globalStats = s.globalStats) ∧
    (∀ env s m r a sd u, alookup a s.users = some u →
        (processEvent env s (Ev.revoked m r a sd)).globalStats = s.globalStats) ∧
    (∀ env s m tid tt c sc uri u, alookup m.txFrom s.users = some u →
        totalEventsOf (processEvent env s (Ev.created m tid tt c sc uri))
            = totalEventsOf s + 1 ∧
          totalTokensOf (processEvent env s (Ev.created m tid tt c sc uri))
            = totalTokensOf s + 1 ∧
          totalMintsOf (processEvent env s (Ev.created m tid tt c sc uri)) = totalMintsOf s ∧
          totalUsersOf (processEvent env s (Ev.created m tid tt c sc uri)) = totalUsersOf s) ∧
    (∀ s m op ta id v u, alookup ta s.users = some u →
        totalEventsOf (handleTokenMint s m ta id v op) = totalEventsOf s + 1 ∧
          totalMintsOf (handleTokenMint s m ta id v op) = totalMintsOf s + 1 ∧
          totalTokensOf (handleTokenMint s m ta id v op) = totalTokensOf s ∧
          totalUsersOf (handleTokenMint s m ta id v op) = totalUsersOf s) := by
  refine ⟨ugs_totalEvents, ?_, ?_, ?_, ?_, ?_⟩
  · intro env s m op f ta id v uf ut hf huf hut
    exact single_plain_globalStats s m op f ta id v uf ut hf huf hut
  · intro env s m r a sd u hu
    exact granted_globalStats_of_present s m r a sd u hu
  · intro env s m r a sd u hu
    exact revoked_globalStats_of_present s m r a sd u hu
  · intro env s m tid tt c sc uri u hu
    exact created_totalCounters env s m tid tt c sc uri u hu
  · intro s m op ta id v u hu
    exact mint_totalCounters s m ta id v op u hu

/-- C4 counterexample: a single creation event from a fresh store bumps the
total-event counter twice (once for the new creator user, once for the
creation), and a plain transfer between existing users bumps it zero times —
refuting "incremented exactly once per applied event". -/
theorem global_event_counter_cex :
    totalEventsOf (applyEvents sampleEnv initialState
        [Ev.created (sampleMeta 1) 42 0 "cat" "sub" none]) = 2 ∧
    totalEventsOf (applyEvents sampleEnv c4State
        [Ev.single (sampleMeta 3) "0x05" userA userB 9 3]) = totalEventsOf c4State := by
  decide

/-- C4 witness: a plain transfer between existing users leaves GlobalStats
unchanged. -/
theorem global_event_counter_witness :
    alookup userA c4State.users = some c4UserA ∧
    (processEvent sampleEnv c4State (Ev.single (sampleMeta 3) "0x05" userA userA 9 3)).globalStats
      = c4State.globalStats :=
  ⟨by decide,
   global_event_counter.2.1 sampleEnv c4State (sampleMeta 3) "0x05" userA userA 9 3
     c4UserA c4UserA (by decide) (by decide) (by decide)⟩

/-- C5 (amended): for a transfer referencing a token id with no Token entity,
the Token collection (hence any supply) is untouched, but the balance update
is NOT skipped: `updateUserBalance` never consults the Token collection, so
UserTokenBalance records are created/modified for the unknown token — both
for plain transfers (source and destination) and for mints (destination).
Only the supply increment and the TokenMint snapshot fields are skipped. -/
theorem unknown_token_balance_update (s : State) (m : EvMeta) (op f ta : String)
    (id : Nat) (v : Int)
    (hunk : alookup (toString id) s.tokens = none) (hf : ¬f = ZERO_ADDRESS) :
    (handleTransferSingle s m op f ta id v).tokens = s.tokens ∧
    (handleTransferSingle s m op f ta id v).balances
      = uubBalances (uubBalances s.balances f id (-v) m.timestamp) ta id v m.timestamp ∧
    (handleTokenMint s m ta id v op).tokens = s.tokens ∧
    (handleTokenMint s m ta id v op).balances
      = uubBalances s.balances ta id v m.timestamp := by
  refine ⟨single_tokens_plain s m op f ta id v hf, single_balances_plain s m op f ta id v hf,
    ?_, mint_balances s m ta id v op⟩
  rw [mint_tokens, hunk]

/-- C5 counterexample: a plain transfer of 3 of unknown token 99 creates two
balance records (source -3, destination 3) although no Token entity exists —
refuting "the balance update is skipped". -/
theorem unknown_token_balance_update_cex :
    alookup "99" c5State.tokens = none ∧
    (alookup (userA, "99") c5State.balances).map (fun b => b.balance) = some (-3) ∧
    (alookup (userB, "99") c5State.balances).map (fun b => b.balance) = some 3 := by
  decide

/-- C5 witness: the amended statement instantiated on the empty store. -/
theorem unknown_token_balance_update_witness :
    alookup (toString (99 : Nat)) initialState.tokens = none ∧
    (handleTransferSingle initialState (sampleMeta 1) "0x05" userA userB 99 3).balances
      = uubBalances (uubBalances initialState.balances userA 99 (-3) (sampleMeta 1).timestamp)
          userB 99 3 (sampleMeta 1).timestamp :=
  ⟨by decide,
   (unknown_token_balance_update initialState (sampleMeta 1) "0x05" userA userB 99 3
      (by decide) (by decide)).2.1⟩

/-- C6: the event orderer concatenates the five per-kind raw-event lists and
sorts by block number ascending, then log index ascending; the result is a
permutation of the inputs, sorted under that order, and — the merge being a
pure function of its inputs — re-running it on the same inputs yields the
same sequence (the last conjunct is definitional in a pure embedding, as the
source's array sort with a fixed comparator is deterministic and stable). -/
theorem event_orderer (tokenCreated transferSingle transferBatch
    roleGranted roleRevoked : List RawEv) :
    (mergeEvents tokenCreated transferSingle transferBatch roleGranted roleRevoked).Perm
        (tokenCreated ++ transferSingle ++ transferBatch ++ roleGranted ++ roleRevoked) ∧
    List.Pairwise (fun a b => rawEvLe a b = true)
        (mergeEvents tokenCreated transferSingle transferBatch roleGranted roleRevoked) ∧
    mergeEvents tokenCreated transferSingle transferBatch roleGranted roleRevoked
      = mergeEvents tokenCreated transferSingle transferBatch roleGranted roleRevoked :=
  ⟨List.mergeSort_perm _ _, List.sorted_mergeSort rawEvLe_trans rawEvLe_total _, rfl⟩

/-- C7 (amended): the chunking loop issues consecutive, non-overlapping
sub-ranges of span at most 45000 whose union covers every block of
[start, end] exactly once — except when `end - start` is a multiple of 45001
(including `start = end`), in which case the loop stops at `from = end` and
block `end` alone is never covered (counterexample `chunk_coverage_cex`). -/
theorem chunk_coverage (startBlock endBlock : Nat) (h1 : startBlock ≤ endBlock)
    (h2 : ¬(maxBlockRange + 1) ∣ (endBlock - startBlock)) :
    (∀ b, startBlock ≤ b → b ≤ endBlock →
        coverCount (chunkRanges startBlock endBlock maxBlockRange) b = 1) ∧
    List.Chain' (fun c d => d.1 = c.2 + 1)
        (chunkRanges startBlock endBlock maxBlockRange) ∧
    (∀ c ∈ chunkRanges startBlock endBlock maxBlockRange,
        c.1 ≤ c.2 ∧ c.2 - c.1 ≤ maxBlockRange) :=
  ⟨fun b hb1 hb2 => chunkRanges_coverCount startBlock endBlock maxBlockRange b h2 hb1 hb2,
   chunkRanges_chain startBlock endBlock maxBlockRange,
   fun c hc => ⟨(chunkRanges_mem_bounds startBlock endBlock maxBlockRange c hc).2.1,
     (chunkRanges_mem_bounds startBlock endBlock maxBlockRange c hc).2.2.1⟩⟩

/-- C7 counterexample: for the range [0, 45001] — whose span is exactly one
maximal chunk plus one block — the loop issues only [0, 45000] and block
45001 is covered zero times, refuting exact coverage for every
start ≤ end. -/
theorem chunk_coverage_cex :
    chunkRanges 0 45001 45000 = [(0, 45000)] ∧
    coverCount (chunkRanges 0 45001 45000) 45001 = 0 := by
  have h : chunkRanges 0 45001 45000 = [(0, 45000)] := by
    rw [chunkRanges]
    norm_num
    rw [chunkRanges]
    norm_num
  refine ⟨h, ?_⟩
  rw [h]
  decide

/-- C7 witness: the amended coverage statement instantiated on [0, 10]. -/
theorem chunk_coverage_witness :
    (0 ≤ 10 ∧ ¬(maxBlockRange + 1) ∣ (10 - 0)) ∧
    coverCount (chunkRanges 0 10 maxBlockRange) 5 = 1 :=
  ⟨⟨by omega, by decide⟩,
   (chunk_coverage 0 10 (by omega) (by decide)).1 5 (by omega) (by omega)⟩

/-- C8: for every token id and URI whose retrieval or parse fails (no
response, bad status, non-JSON body, failed ipfs fetch, or an unrecognized
scheme — all the cases in which `fetchJson` yields nothing), the resolver
returns the default metadata record: name `"Token " ++ id`, the default
description, empty image and reward id.  The embedding is a total function,
so no failure is ever propagated. -/
theorem metadata_fallback (env : Env) (s : State) (tokenId uri : String)
    (h : fetchJson env uri = none) :
    (fetchAndParseMetadata env s tokenId (some uri)).2.name = "Token " ++ tokenId ∧
    (fetchAndParseMetadata env s tokenId (some uri)).2.description
      = "Description for token " ++ tokenId ∧
    (fetchAndParseMetadata env s tokenId (some uri)).2.image = "" ∧
    (fetchAndParseMetadata env s tokenId (some uri)).2.rewardId = "" := by
  simp [fetchAndParseMetadata, h]

/-- C8 witness: with an environment in which every retrieval fails, resolving
token 7 via an HTTP URI yields the default name. -/
theorem metadata_fallback_witness :
    fetchJson sampleEnv "http://example.com/meta.json" = none ∧
    (fetchAndParseMetadata sampleEnv initialState "7"
        (some "http://example.com/meta.json")).2.name = "Token 7" :=
  ⟨rfl,
   (metadata_fallback sampleEnv initialState "7" "http://example.com/meta.json" rfl).1⟩

/-- C9 (amended): every AllEvent journal id is `txHash-logIndex` — the token
id appears only in TokenMint entity ids, never in journal ids.  In a batch
mint every per-element mint journal write therefore shares the batch entry's
id and is overwritten by it: a batch event adds exactly one journal row, the
whole-batch entry. -/
theorem batch_journal (s : State) (m : EvMeta) (op ta : String) (ids : List Nat)
    (values : List Int) (hfresh : alookup (eventIdOf m) s.allEvents = none) :
    alookup (eventIdOf m)
        (handleTransferBatch s m op ZERO_ADDRESS ta ids values).allEvents
      = some (batchAllEvent m op ZERO_ADDRESS ta ids values) ∧
    (handleTransferBatch s m op ZERO_ADDRESS ta ids values).allEvents.length
      = s.allEvents.length + 1 := by
  constructor
  · rw [batch_allEvents, alookup_ainsert_self]
  · rw [batch_allEvents, length_ainsert_of_none _ hfresh]

/-- C9 counterexample: a batch mint of token ids 1 and 2 writes two TokenMint
entities but only one journal row survives — the whole-batch entry — because
the two mint journal entries and the batch entry all share the id
`txHash-logIndex`, refuting "all have distinct ids and none overwrites
another". -/
theorem batch_journal_cex :
    c9State.tokenMints.length = 2 ∧
    c9State.allEvents.length = 1 ∧
    (alookup (eventIdOf (sampleMeta 1)) c9State.allEvents).map (fun e => e.eventType)
      = some "TransferBatch" := by
  decide

/-- C9 witness: the amended statement instantiated on the empty store. -/
theorem batch_journal_witness :
    alookup (eventIdOf (sampleMeta 1)) initialState.allEvents = none ∧
    (handleTransferBatch initialState (sampleMeta 1) "0x05" ZERO_ADDRESS userA
        [1, 2] [5, 5]).allEvents.length = initialState.allEvents.length + 1 :=
  ⟨rfl,
   (batch_journal initialState (sampleMeta 1) "0x05" userA [1, 2] [5, 5] rfl).2⟩

/-- C10: a duplicate TokenCreated event for an existing token id leaves the
Token entity unchanged but still creates a new TokenCreation record and a new
AllEvent journal entry (given fresh `txHash-logIndex`), increments the
creator's totalTokensCreated, the GlobalStats tokens counter, and the
DailyStats tokens-created counter: creation idempotency does not extend to
counters or derived records. -/
theorem duplicate_creation (env : Env) (s : State) (m : EvMeta) (tid tt : Nat)
    (c sc : String) (uri : Option String) (t : Token) (u : User)
    (htok : alookup (toString tid) s.tokens = some t)
    (hu : alookup m.txFrom s.users = some u)
    (hcr : alookup (eventIdOf m) s.tokenCreations = none)
    (hev : alookup (eventIdOf m) s.allEvents = none) :
    alookup (toString tid) (handleTokenCreated env s m tid tt c sc uri).tokens = some t ∧
    (handleTokenCreated env s m tid tt c sc uri).tokenCreations.length
      = s.tokenCreations.length + 1 ∧
    (handleTokenCreated env s m tid tt c sc uri).allEvents.length
      = s.allEvents.length + 1 ∧
    alookup m.txFrom (handleTokenCreated env s m tid tt c sc uri).users
      = some { u with totalTokensCreated := u.totalTokensCreated + 1,
                      lastInteraction := m.timestamp } ∧
    totalTokensOf (handleTokenCreated env s m tid tt c sc uri) = totalTokensOf s + 1 ∧
    dailyTokensCreatedOf (handleTokenCreated env s m tid tt c sc uri) m.timestamp
      = dailyTokensCreatedOf s m.timestamp + 1 := by
  refine ⟨?_, ?_, ?_, created_user_counter env s m tid tt c sc uri u hu,
    created_totalTokens env s m tid tt c sc uri, created_daily env s m tid tt c sc uri⟩
  · rw [created_tokens_of_present env s m tid tt c sc uri (by simp [htok]), htok]
  · obtain ⟨cr, hcr2⟩ := created_creations env s m tid tt c sc uri
    rw [hcr2, length_ainsert_of_none _ hcr]
  · obtain ⟨ae, hae⟩ := created_allEvents env s m tid tt c sc uri
    rw [hae, length_ainsert_of_none _ hev]

/-- C10 witness: a duplicate creation of token 42 bumps the GlobalStats
tokens counter although the Token entity is untouched. -/
theorem duplicate_creation_witness :
    (alookup (toString (42 : Nat)) c3State.tokens = some c3Token ∧
      alookup "0xcafe" c3State.users = some c10User) ∧
    totalTokensOf (handleTokenCreated sampleEnv c3State (sampleMeta 2) 42 0 "cat" "sub" none)
      = totalTokensOf c3State + 1 :=
  ⟨⟨by decide, by decide⟩,
   (duplicate_creation sampleEnv c3State (sampleMeta 2) 42 0 "cat" "sub" none c3Token c10User
      (by decide) (by decide) (by decide) (by decide)).2.2.2.2.1⟩

end Subgraph
